import Mathlib

/-!
# Verification of the library-management engine (`src/main.py`)

Shallow embedding of the loan-lifecycle / borrower-eligibility engine of the
Python program.  Modelling conventions:

* Python `dict`s (which preserve insertion order, look up by key, update in
  place and append new keys at the end) are embedded as association lists
  `List (String × α)` with the operations `dlookup`, `dinsert`, `dmodify`,
  `derase` mirroring `d[k]`, `d[k] = v`, in-place mutation of the stored
  object, and `del d[k]`.
* Dates: the program stores calendar dates as `'YYYY-MM-DD'` strings
  (`strftime`/`strptime` with that format are mutually inverse on valid
  dates), so a stored date is embedded as the day number `Nat`.
  The value of `datetime.now()` is embedded as a second count `now : Nat`
  (seconds since the epoch): `strftime('%Y-%m-%d')` on it yields the day
  `now / 86400`, and `strptime` of a stored day `d` yields the midnight
  instant `d * 86400`.  The several `datetime.now()` calls inside one
  method are modelled as one ambient clock value per call, passed as the
  parameter `now` (the call is treated as instantaneous).
* Counts (`total_copias`, `copias_disponiveis`) are Python `int`s: `Int`.
* Each mutating method returns, besides its result and the new state, a
  `Bool` recording whether the method reached its `self.salvar_dados()`
  call (the early `return`s on business-rule errors skip it).
* The CSV files are embedded as optional lists of typed rows (the string
  encoding of a row is the persistence gateway's concern; `int` ↔ decimal
  string and date ↔ `'YYYY-MM-DD'` string are bijective, and the `csv`
  module round-trips each cell).  A missing file (`os.path.exists` false)
  is `none`.
* `devolver_livro` on a state whose ledger holds a loan for a book absent
  from the catalog would raise `AttributeError` in Python
  (`livro.copias_disponiveis += 1` on `None`); such states are not
  reachable (the ledger only ever references catalogued books, see
  `Inv.empRef`).  The embedding leaves the catalog unchanged there; the
  theorems about returns assume the referenced book exists.
-/

/-- Number of seconds in a day; `timedelta(days = n)` is `n * 86400` seconds. -/
def SEGUNDOS_POR_DIA : Nat := 86400

/-- Calendar day of an instant: the effect of `strftime('%Y-%m-%d')`. -/
def diaDe (t : Nat) : Nat := t / SEGUNDOS_POR_DIA

/-- `DIAS_EMPRESTIMO = 7` (loan period, `src/main.py` line 9). -/
def DIAS_EMPRESTIMO : Nat := 7

/-- A book record (`class Livro`). -/
structure Livro where
  titulo : String
  autor : String
  isbn : String
  total_copias : Int
  copias_disponiveis : Int
  deriving Repr, DecidableEq

/-- A borrower record (`class Aluno`); `banido` holds the literal strings
`"Sim"`/`"Não"` used by the program. -/
structure Aluno where
  aluno_id : String
  nome : String
  banido : String
  deriving Repr, DecidableEq

/-- A loan record: the `[data_emprestimo, data_vencimento]` pair stored in
`self.emprestimos[isbn][aluno_id]`, as day numbers. -/
structure Emprestimo where
  data_emprestimo : Nat
  data_vencimento : Nat
  deriving Repr, DecidableEq

/-- Dictionary lookup `d.get(k)` / `d[k]` on an insertion-ordered dict. -/
def dlookup (k : String) : List (String × α) → Option α
  | [] => none
  | p :: l => if p.1 = k then some p.2 else dlookup k l

/-- Dictionary store `d[k] = v`: replace in place if the key is present,
append at the end otherwise. -/
def dinsert (k : String) (v : α) : List (String × α) → List (String × α)
  | [] => [(k, v)]
  | p :: l => if p.1 = k then (k, v) :: l else p :: dinsert k v l

/-- In-place mutation of the object stored at `k` (Python mutates the object
returned by lookup; only the first occurrence can be looked up). -/
def dmodify (k : String) (f : α → α) : List (String × α) → List (String × α)
  | [] => []
  | p :: l => if p.1 = k then (p.1, f p.2) :: l else p :: dmodify k f l

/-- Dictionary deletion `del d[k]` (removes the entry at `k`). -/
def derase (k : String) : List (String × α) → List (String × α)
  | [] => []
  | p :: l => if p.1 = k then l else p :: derase k l

/-- Membership test `k in d`. -/
def dmem (k : String) (l : List (String × α)) : Bool := (dlookup k l).isSome

/-- The keys of a dict, in insertion order. -/
def dkeys (l : List (String × α)) : List String := l.map Prod.fst

/-- The in-memory state of `class Biblioteca`: the three dicts. -/
structure Biblioteca where
  livros : List (String × Livro)
  alunos : List (String × Aluno)
  emprestimos : List (String × List (String × Emprestimo))
  deriving Repr, DecidableEq

/-- The freshly-constructed empty state. -/
def vazio : Biblioteca := ⟨[], [], []⟩

/-- The business-rule error kinds of the engine (§7 of the spec; in the
program each is a printed message followed by an early `return`). -/
inductive Err where
  | notFound
  | duplicateIdentifier
  | hasOpenLoans
  | borrowerSuspended
  | noCopiesAvailable
  | alreadyHolding
  | noSuchLoan
  deriving Repr, DecidableEq

/-- Loan lookup for a (book, borrower) pair:
`self.emprestimos[isbn][aluno_id]` when both levels exist. -/
def buscaEmp (b : Biblioteca) (isbn aluno_id : String) : Option Emprestimo :=
  (dlookup isbn b.emprestimos).bind (dlookup aluno_id)

/-- `Biblioteca.adicionar_livro` (lines 116-126): add a book or new copies of
an existing one; always succeeds and always saves. -/
def adicionar_livro (b : Biblioteca) (_titulo _autor isbn : String) (copias : Int) :
    Biblioteca × Bool :=
  match dlookup isbn b.livros with
  | some _ =>
      ({ b with livros := (dmodify isbn
          (fun l => { l with total_copias := l.total_copias + copias,
                             copias_disponiveis := l.copias_disponiveis + copias })
          b.livros) }, true)
  | none =>
      ({ b with livros := b.livros ++ [(isbn, ⟨_titulo, _autor, isbn, copias, copias⟩)] },
       true)

/-- `Biblioteca.adicionar_aluno` (lines 140-147): register a borrower;
rejects a duplicate identifier before mutating or saving. -/
def adicionar_aluno (b : Biblioteca) (aluno_id nome : String) :
    Except Err Unit × Biblioteca × Bool :=
  if dmem aluno_id b.alunos then
    (Except.error Err.duplicateIdentifier, b, false)
  else
    (Except.ok (), { b with alunos := b.alunos ++ [(aluno_id, ⟨aluno_id, nome, "Não"⟩)] },
     true)

/-- `Biblioteca.banir_aluno` (lines 159-174): suspend a borrower; refused if
unknown or if any inner ledger dict contains the identifier. -/
def banir_aluno (b : Biblioteca) (aluno_id : String) :
    Except Err Unit × Biblioteca × Bool :=
  match dlookup aluno_id b.alunos with
  | none => (Except.error Err.notFound, b, false)
  | some _ =>
      if b.emprestimos.any (fun p => dmem aluno_id p.2) then
        (Except.error Err.hasOpenLoans, b, false)
      else
        (Except.ok (),
         { b with alunos := dmodify aluno_id (fun a => { a with banido := "Sim" }) b.alunos },
         true)

/-- `Biblioteca.desbanir_aluno` (lines 176-185): reinstate a borrower;
unconditional once the identifier is found. -/
def desbanir_aluno (b : Biblioteca) (aluno_id : String) :
    Except Err Unit × Biblioteca × Bool :=
  match dlookup aluno_id b.alunos with
  | none => (Except.error Err.notFound, b, false)
  | some _ =>
      (Except.ok (),
       { b with alunos := dmodify aluno_id (fun a => { a with banido := "Não" }) b.alunos },
       true)

/-- `Biblioteca.emprestar_livro` (lines 189-224).  The four checks in source
order, then: decrement `copias_disponiveis`, store the loan
`[now.date, (now + 7 days).date]`, report the due date.  `now` is the value
of `datetime.now()` during the call, in seconds. -/
def emprestar_livro (b : Biblioteca) (isbn aluno_id : String) (now : Nat) :
    Except Err Nat × Biblioteca × Bool :=
  match dlookup isbn b.livros, dlookup aluno_id b.alunos with
  | none, _ => (Except.error Err.notFound, b, false)
  | some _, none => (Except.error Err.notFound, b, false)
  | some livro, some aluno =>
      if aluno.banido = "Sim" then
        (Except.error Err.borrowerSuspended, b, false)
      else if livro.copias_disponiveis ≤ 0 then
        (Except.error Err.noCopiesAvailable, b, false)
      else if (buscaEmp b isbn aluno_id).isSome then
        (Except.error Err.alreadyHolding, b, false)
      else
        let data_emprestimo := diaDe now
        let data_vencimento := diaDe (now + DIAS_EMPRESTIMO * SEGUNDOS_POR_DIA)
        let emp1 := if dmem isbn b.emprestimos then b.emprestimos
                    else dinsert isbn [] b.emprestimos
        let emp2 := dmodify isbn
          (dinsert aluno_id ⟨data_emprestimo, data_vencimento⟩) emp1
        (Except.ok data_vencimento,
         { b with
             livros := dmodify isbn
               (fun l => { l with copias_disponiveis := l.copias_disponiveis - 1 }) b.livros,
             emprestimos := emp2 },
         true)

/-- `Biblioteca.devolver_livro` (lines 226-255).  Result payload: `none` for
an on-time return, `some d` for a late return with `d` whole days of delay
(`(data_atual - data_vencimento).days`, i.e. floor over seconds).  The stored
due day `v` is parsed back by `strptime` to the midnight instant
`v * 86400`. -/
def devolver_livro (b : Biblioteca) (isbn aluno_id : String) (now : Nat) :
    Except Err (Option Nat) × Biblioteca × Bool :=
  match buscaEmp b isbn aluno_id with
  | none => (Except.error Err.noSuchLoan, b, false)
  | some datas =>
      let atraso : Option Nat :=
        if datas.data_vencimento * SEGUNDOS_POR_DIA < now then
          some ((now - datas.data_vencimento * SEGUNDOS_POR_DIA) / SEGUNDOS_POR_DIA)
        else none
      let emp1 := dmodify isbn (derase aluno_id) b.emprestimos
      let emp2 := if dlookup isbn emp1 = some [] then derase isbn emp1 else emp1
      (Except.ok atraso,
       { b with
           livros := dmodify isbn
             (fun l => { l with copias_disponiveis := l.copias_disponiveis + 1 }) b.livros,
           emprestimos := emp2 },
       true)

/-- One line of the report of `Biblioteca.listar_emprestimos`. -/
structure ItemRel where
  isbn : String
  aluno_id : String
  data_vencimento : Nat
  atraso : Option Nat
  deriving Repr, DecidableEq

/-- `Biblioteca.listar_emprestimos` (lines 257-279): the report rows, one per
open loan, in ledger iteration order; the overdue check repeats the one of
`devolver_livro` (the source duplicates the logic textually). -/
def listar_emprestimos (b : Biblioteca) (now : Nat) : List ItemRel :=
  b.emprestimos.flatMap (fun p =>
    p.2.map (fun q =>
      { isbn := p.1
        aluno_id := q.1
        data_vencimento := q.2.data_vencimento
        atraso :=
          if q.2.data_vencimento * SEGUNDOS_POR_DIA < now then
            some ((now - q.2.data_vencimento * SEGUNDOS_POR_DIA) / SEGUNDOS_POR_DIA)
          else none }))

/-! ## Persistence (`salvar_dados` / `_carregar_dados`) -/

/-- A row of `emprestimos.csv`: `[isbn, aluno_id, data_emprestimo, data_vencimento]`. -/
structure EmpRow where
  isbn : String
  aluno_id : String
  data_emprestimo : Nat
  data_vencimento : Nat
  deriving Repr, DecidableEq

/-- The three CSV files; `none` stands for an absent file. -/
structure FS where
  livrosFile : Option (List Livro)
  alunosFile : Option (List Aluno)
  emprestimosFile : Option (List EmpRow)
  deriving Repr, DecidableEq

/-- A filesystem with none of the three files present. -/
def fsVazio : FS := ⟨none, none, none⟩

/-- `Biblioteca.salvar_dados` (lines 79-112): the book and borrower files are
(re)written only when the corresponding dict is non-empty (`if self.livros:`),
so an existing file survives a save from an empty dict; the loan file is
always rewritten, flattening the nested dict in iteration order. -/
def salvar_dados (b : Biblioteca) (fs : FS) : FS :=
  { livrosFile := if b.livros.isEmpty then fs.livrosFile
                  else some (b.livros.map Prod.snd)
    alunosFile := if b.alunos.isEmpty then fs.alunosFile
                  else some (b.alunos.map Prod.snd)
    emprestimosFile := some (b.emprestimos.flatMap (fun p =>
      p.2.map (fun q => ⟨p.1, q.1, q.2.data_emprestimo, q.2.data_vencimento⟩))) }

/-- `Biblioteca._carregar_dados` (lines 56-77): rebuild each dict from its
file, keying books by the row's `isbn` field, borrowers by `aluno_id`, and
loans by re-creating the nested dict row by row (`if isbn not in ...` then
inner store). -/
def carregar_dados (fs : FS) : Biblioteca :=
  { livros := match fs.livrosFile with
      | none => []
      | some rows => rows.foldl (fun d r => dinsert r.isbn r d) []
    alunos := match fs.alunosFile with
      | none => []
      | some rows => rows.foldl (fun d r => dinsert r.aluno_id r d) []
    emprestimos := match fs.emprestimosFile with
      | none => []
      | some rows => rows.foldl (fun d r =>
          let d1 := if dmem r.isbn d then d else dinsert r.isbn [] d
          dmodify r.isbn
            (dinsert r.aluno_id ⟨r.data_emprestimo, r.data_vencimento⟩) d1) [] }

/-! ## Reachable states -/

/-- The Manager operations a caller can invoke (the menu layer validates
`copias` to be a positive integer before calling `adicionar_livro`). -/
inductive Op where
  | addLivro (titulo autor isbn : String) (copias : Int)
  | addAluno (aluno_id nome : String)
  | banir (aluno_id : String)
  | desbanir (aluno_id : String)
  | emprestar (isbn aluno_id : String) (now : Nat)
  | devolver (isbn aluno_id : String) (now : Nat)
  deriving Repr, DecidableEq

/-- Caller-side validation: copy counts are positive (menu lines 327-332). -/
def ValidOp : Op → Prop
  | .addLivro _ _ _ copias => 0 < copias
  | _ => True

/-- Run one operation against the state and the filesystem: the state
transition of the method, then `salvar_dados` exactly when the method
reached its save call. -/
def applyOp (p : Biblioteca × FS) : Op → Biblioteca × FS
  | .addLivro t a i c =>
      let r := adicionar_livro p.1 t a i c
      (r.1, if r.2 then salvar_dados r.1 p.2 else p.2)
  | .addAluno id n =>
      let r := adicionar_aluno p.1 id n
      (r.2.1, if r.2.2 then salvar_dados r.2.1 p.2 else p.2)
  | .banir id =>
      let r := banir_aluno p.1 id
      (r.2.1, if r.2.2 then salvar_dados r.2.1 p.2 else p.2)
  | .desbanir id =>
      let r := desbanir_aluno p.1 id
      (r.2.1, if r.2.2 then salvar_dados r.2.1 p.2 else p.2)
  | .emprestar i id now =>
      let r := emprestar_livro p.1 i id now
      (r.2.1, if r.2.2 then salvar_dados r.2.1 p.2 else p.2)
  | .devolver i id now =>
      let r := devolver_livro p.1 i id now
      (r.2.1, if r.2.2 then salvar_dados r.2.1 p.2 else p.2)

/-- The states (with their filesystem) reachable from the empty state and an
empty filesystem by valid Manager operations. -/
inductive Reachable : Biblioteca × FS → Prop
  | init : Reachable (vazio, fsVazio)
  | step {p : Biblioteca × FS} (op : Op) (hp : Reachable p) (hv : ValidOp op) :
      Reachable (applyOp p op)

/-! ## Invariant definitions -/

/-- Open-loan count of a book through the ledger's outer lookup. -/
def nEmp (em : List (String × List (String × Emprestimo))) (k : String) : Nat :=
  match dlookup k em with
  | some inner => inner.length
  | none => 0

/-- Open-loan count of a book by scanning the whole ledger, as the claim
about the accounting identity words it. -/
def contaLivro (em : List (String × List (String × Emprestimo))) (k : String) : Nat :=
  (em.map (fun p => if p.1 = k then p.2.length else 0)).sum

/-- The state part of the reachable-state invariant: unique keys at every
level, records that carry their own key, non-empty inner ledger dicts,
referential integrity of the ledger into the catalog, and the copy
accounting (`available = total - open loans`, `available ≥ 0`). -/
structure StInv (b : Biblioteca) : Prop where
  livNodup : (dkeys b.livros).Nodup
  aluNodup : (dkeys b.alunos).Nodup
  empNodup : (dkeys b.emprestimos).Nodup
  innerNodup : ∀ p ∈ b.emprestimos, (dkeys p.2).Nodup
  innerNe : ∀ p ∈ b.emprestimos, p.2 ≠ []
  livKey : ∀ p ∈ b.livros, p.2.isbn = p.1
  aluKey : ∀ p ∈ b.alunos, p.2.aluno_id = p.1
  empRef : ∀ p ∈ b.emprestimos, p.1 ∈ dkeys b.livros
  conta : ∀ p ∈ b.livros,
    p.2.copias_disponiveis = p.2.total_copias - (nEmp b.emprestimos p.1 : Int)
  dispPos : ∀ p ∈ b.livros, 0 ≤ p.2.copias_disponiveis

/-- The full invariant: the state invariant plus the synchronisation of the
two conditionally-written files (a book/borrower file can only exist once the
corresponding dict has been non-empty, and neither dict ever shrinks to
empty again). -/
def BibInv (b : Biblioteca) (fs : FS) : Prop :=
  StInv b ∧ (b.livros = [] → fs.livrosFile = none) ∧
    (b.alunos = [] → fs.alunosFile = none)

/-! ## Concrete example states used by witnesses and counterexamples -/

/-- A state with one fully available book `B1` and one active borrower `S1`. -/
def bExemplo : Biblioteca :=
  ⟨[("B1", ⟨"T", "A", "B1", 1, 1⟩)], [("S1", ⟨"S1", "N", "Não"⟩)], []⟩

/-- A state in which `S1` holds `B1`, issued on day 0 and due on day 7. -/
def bAtraso : Biblioteca :=
  ⟨[("B1", ⟨"T", "A", "B1", 1, 0⟩)], [("S1", ⟨"S1", "N", "Não"⟩)],
   [("B1", [("S1", ⟨0, 7⟩)])]⟩

/-- One valid step from the empty configuration: stock one copy of `B1`. -/
def passoExemplo1 : Biblioteca × FS :=
  applyOp (vazio, fsVazio) (Op.addLivro "T" "A" "B1" 1)

/-- Then register borrower `S1`. -/
def passoExemplo2 : Biblioteca × FS := applyOp passoExemplo1 (Op.addAluno "S1" "N")

/-- Then issue `B1` to `S1` at instant 0. -/
def passoExemplo3 : Biblioteca × FS :=
  applyOp passoExemplo2 (Op.emprestar "B1" "S1" 0)

/-! ## Dictionary lemmas -/

theorem dkeys_nil : dkeys ([] : List (String × α)) = [] := rfl

theorem dkeys_cons (p : String × α) (l : List (String × α)) :
    dkeys (p :: l) = p.1 :: dkeys l := rfl

theorem dlookup_eq_none_iff {k : String} {l : List (String × α)} :
    dlookup k l = none ↔ k ∉ dkeys l := by
  induction l with
  | nil => simp [dlookup, dkeys]
  | cons p l ih =>
      by_cases h : p.1 = k
      · subst h; simp [dlookup, dkeys]
      · simp [dlookup, dkeys, h, Ne.symm h, ih]

theorem dmem_eq_false_iff {k : String} {l : List (String × α)} :
    dmem k l = false ↔ dlookup k l = none := by
  unfold dmem
  cases dlookup k l <;> simp

theorem dlookup_isSome_iff {k : String} {l : List (String × α)} :
    (dlookup k l).isSome = true ↔ k ∈ dkeys l := by
  rw [Option.isSome_iff_ne_none, ne_eq, dlookup_eq_none_iff, not_not]

theorem dlookup_dinsert (k k' : String) (v : α) (l : List (String × α)) :
    dlookup k (dinsert k' v l) = if k' = k then some v else dlookup k l := by
  induction l with
  | nil => simp [dlookup, dinsert]
  | cons p l ih =>
      by_cases h : p.1 = k' <;> by_cases hk : p.1 = k
      · subst h; subst hk; simp [dinsert, dlookup]
      · subst h; simp [dinsert, dlookup, hk]
      · subst hk; simp [dinsert, dlookup, h, Ne.symm h]
      · simp [dinsert, dlookup, h, hk, ih]

theorem dlookup_dmodify (k k' : String) (f : α → α) (l : List (String × α)) :
    dlookup k (dmodify k' f l) =
      if k' = k then Option.map f (dlookup k l) else dlookup k l := by
  induction l with
  | nil => simp [dlookup, dmodify]
  | cons p l ih =>
      by_cases h : p.1 = k' <;> by_cases hk : p.1 = k
      · subst h; subst hk; simp [dmodify, dlookup]
      · subst h; simp [dmodify, dlookup, hk]
      · subst hk; simp [dmodify, dlookup, h, Ne.symm h]
      · simp [dmodify, dlookup, h, hk, ih]

theorem dlookup_derase_ne {k k' : String} (h : k' ≠ k) (l : List (String × α)) :
    dlookup k (derase k' l) = dlookup k l := by
  induction l with
  | nil => simp [derase]
  | cons p l ih =>
      by_cases hp : p.1 = k'
      · subst hp; simp [derase, dlookup, h]
      · simp [derase, dlookup, hp, ih]

theorem dlookup_derase_self {k : String} {l : List (String × α)}
    (h : (dkeys l).Nodup) : dlookup k (derase k l) = none := by
  induction l with
  | nil => simp [derase, dlookup]
  | cons p l ih =>
      rw [dkeys_cons, List.nodup_cons] at h
      by_cases hp : p.1 = k
      · simp only [derase, if_pos hp]
        exact dlookup_eq_none_iff.mpr (hp ▸ h.1)
      · simp [derase, dlookup, hp, ih h.2]

theorem dinsert_eq_append {k : String} {l : List (String × α)}
    (h : dlookup k l = none) (v : α) : dinsert k v l = l ++ [(k, v)] := by
  induction l with
  | nil => simp [dinsert]
  | cons p l ih =>
      simp only [dlookup] at h
      by_cases hp : p.1 = k
      · simp [hp] at h
      · simp only [dinsert, if_neg hp, List.cons_append, List.cons.injEq, true_and]
        exact ih (by simpa [hp] using h)

theorem dmodify_eq_of_not_mem {k : String} {l : List (String × α)}
    (h : dlookup k l = none) (f : α → α) : dmodify k f l = l := by
  induction l with
  | nil => simp [dmodify]
  | cons p l ih =>
      simp only [dlookup] at h
      by_cases hp : p.1 = k
      · simp [hp] at h
      · simp only [dmodify, if_neg hp, List.cons.injEq, true_and]
        exact ih (by simpa [hp] using h)

theorem dkeys_dmodify (k : String) (f : α → α) (l : List (String × α)) :
    dkeys (dmodify k f l) = dkeys l := by
  induction l with
  | nil => rfl
  | cons p l ih =>
      by_cases hp : p.1 = k
      · simp [dmodify, dkeys, hp]
      · simp only [dmodify, if_neg hp, dkeys_cons, ih]

theorem dkeys_derase_sublist (k : String) (l : List (String × α)) :
    (dkeys (derase k l)).Sublist (dkeys l) := by
  induction l with
  | nil => simp [derase]
  | cons p l ih =>
      by_cases hp : p.1 = k
      · simp only [derase, if_pos hp, dkeys_cons]
        exact (List.sublist_cons_self _ _)
      · simp only [derase, if_neg hp, dkeys_cons]
        exact ih.cons₂ _

theorem mem_derase {k : String} {p : String × α} {l : List (String × α)}
    (h : p ∈ derase k l) : p ∈ l := by
  induction l with
  | nil => simp [derase] at h
  | cons q l ih =>
      by_cases hq : q.1 = k
      · simp only [derase, if_pos hq] at h
        exact List.mem_cons_of_mem _ h
      · simp only [derase, if_neg hq, List.mem_cons] at h
        rcases h with h | h
        · exact h ▸ List.mem_cons_self _ _
        · exact List.mem_cons_of_mem _ (ih h)

theorem mem_derase_ne {k : String} {p : String × α} {l : List (String × α)}
    (hnd : (dkeys l).Nodup) (h : p ∈ derase k l) : p ∈ l ∧ p.1 ≠ k := by
  induction l with
  | nil => simp [derase] at h
  | cons q l ih =>
      rw [dkeys_cons, List.nodup_cons] at hnd
      by_cases hq : q.1 = k
      · simp only [derase, if_pos hq] at h
        refine ⟨List.mem_cons_of_mem _ h, ?_⟩
        intro hpk
        exact hnd.1 (hq ▸ hpk ▸ List.mem_map_of_mem Prod.fst h)
      · simp only [derase, if_neg hq, List.mem_cons] at h
        rcases h with h | h
        · exact ⟨h ▸ List.mem_cons_self _ _, h ▸ hq⟩
        · obtain ⟨h1, h2⟩ := ih hnd.2 h
          exact ⟨List.mem_cons_of_mem _ h1, h2⟩

theorem derase_length {k : String} {l : List (String × α)}
    (h : k ∈ dkeys l) : l.length = (derase k l).length + 1 := by
  induction l with
  | nil => simp [dkeys] at h
  | cons p l ih =>
      by_cases hp : p.1 = k
      · simp [derase, hp]
      · rw [dkeys_cons, List.mem_cons] at h
        rcases h with h | h
        · exact absurd h.symm hp
        · simp [derase, hp, ih h]

theorem dmodify_forall {k : String} {f : α → α} {l : List (String × α)}
    {P : String × α → Prop}
    (hP : ∀ p ∈ l, P p) (hf : ∀ p ∈ l, p.1 = k → P (p.1, f p.2)) :
    ∀ p ∈ dmodify k f l, P p := by
  induction l with
  | nil => simp [dmodify]
  | cons q l ih =>
      intro p hp
      by_cases hq : q.1 = k
      · simp only [dmodify, if_pos hq, List.mem_cons] at hp
        rcases hp with hp | hp
        · exact hp ▸ hf q (List.mem_cons_self _ _) hq
        · exact hP p (List.mem_cons_of_mem _ hp)
      · simp only [dmodify, if_neg hq, List.mem_cons] at hp
        rcases hp with hp | hp
        · exact hp ▸ hP q (List.mem_cons_self _ _)
        · exact ih (fun r hr => hP r (List.mem_cons_of_mem _ hr))
            (fun r hr => hf r (List.mem_cons_of_mem _ hr)) p hp

theorem mem_dmodify_ne {k : String} {f : α → α} {p : String × α}
    {l : List (String × α)} (h : p ∈ dmodify k f l) (hne : p.1 ≠ k) : p ∈ l := by
  induction l with
  | nil => simp [dmodify] at h
  | cons q l ih =>
      by_cases hq : q.1 = k
      · simp only [dmodify, if_pos hq, List.mem_cons] at h
        rcases h with h | h
        · exact absurd (h ▸ hq : p.1 = k) hne
        · exact List.mem_cons_of_mem _ h
      · simp only [dmodify, if_neg hq, List.mem_cons] at h
        rcases h with h | h
        · exact h ▸ List.mem_cons_self _ _
        · exact List.mem_cons_of_mem _ (ih h)

theorem dlookup_append_some {k : String} {l₁ : List (String × α)} {v : α}
    (h : dlookup k l₁ = some v) (l₂ : List (String × α)) :
    dlookup k (l₁ ++ l₂) = some v := by
  induction l₁ with
  | nil => simp [dlookup] at h
  | cons p l ih =>
      by_cases hp : p.1 = k <;> simp_all [dlookup]

theorem dlookup_append_none {k : String} {l₁ : List (String × α)}
    (h : dlookup k l₁ = none) (l₂ : List (String × α)) :
    dlookup k (l₁ ++ l₂) = dlookup k l₂ := by
  induction l₁ with
  | nil => simp
  | cons p l ih =>
      by_cases hp : p.1 = k <;> simp_all [dlookup]

theorem dmodify_append {k : String} {l : List (String × α)}
    (h : dlookup k l = none) (f : α → α) (x : α) :
    dmodify k f (l ++ [(k, x)]) = l ++ [(k, f x)] := by
  induction l with
  | nil => simp [dmodify]
  | cons p l ih =>
      simp only [dlookup] at h
      by_cases hp : p.1 = k
      · simp [hp] at h
      · simp only [List.cons_append, dmodify, if_neg hp, List.cons.injEq, true_and]
        exact ih (by simpa [hp] using h)

theorem mem_dkeys_of_mem {p : String × α} {l : List (String × α)}
    (h : p ∈ l) : p.1 ∈ dkeys l := List.mem_map_of_mem Prod.fst h

theorem dlookup_mem {k : String} {v : α} {l : List (String × α)}
    (h : dlookup k l = some v) : (k, v) ∈ l := by
  induction l with
  | nil => simp [dlookup] at h
  | cons q l ih =>
      by_cases hq : q.1 = k
      · subst hq
        obtain rfl : q.2 = v := by simpa [dlookup] using h
        exact List.mem_cons_self _ _
      · simp only [dlookup, if_neg hq] at h
        exact List.mem_cons_of_mem _ (ih h)

theorem dlookup_of_mem_nodup {p : String × α} {l : List (String × α)}
    (hnd : (dkeys l).Nodup) (h : p ∈ l) : dlookup p.1 l = some p.2 := by
  induction l with
  | nil => simp at h
  | cons q l ih =>
      rw [dkeys_cons, List.nodup_cons] at hnd
      rcases List.mem_cons.mp h with h | h
      · subst h; simp [dlookup]
      · have hne : ¬ q.1 = p.1 := fun hq => hnd.1 (hq ▸ mem_dkeys_of_mem h)
        simp only [dlookup, if_neg hne]
        exact ih hnd.2 h

theorem dinsert_ne_nil (k : String) (v : α) (l : List (String × α)) :
    dinsert k v l ≠ [] := by
  cases l with
  | nil => simp [dinsert]
  | cons p l => by_cases hp : p.1 = k <;> simp [dinsert, hp]

theorem dkeys_append (l₁ l₂ : List (String × α)) :
    dkeys (l₁ ++ l₂) = dkeys l₁ ++ dkeys l₂ := List.map_append _ _ _

theorem dmodify_forall_nodup {k : String} {f : α → α} {l : List (String × α)}
    {P : String × α → Prop} (hnd : (dkeys l).Nodup)
    (hP : ∀ p ∈ l, p.1 ≠ k → P p) (hf : ∀ p ∈ l, p.1 = k → P (p.1, f p.2)) :
    ∀ p ∈ dmodify k f l, P p := by
  induction l with
  | nil => simp [dmodify]
  | cons q l ih =>
      rw [dkeys_cons, List.nodup_cons] at hnd
      intro p hp
      by_cases hq : q.1 = k
      · simp only [dmodify, if_pos hq, List.mem_cons] at hp
        rcases hp with hp | hp
        · exact hp ▸ hf q (List.mem_cons_self _ _) hq
        · refine hP p (List.mem_cons_of_mem _ hp) ?_
          intro hpk
          exact hnd.1 (hq ▸ hpk ▸ mem_dkeys_of_mem hp)
      · simp only [dmodify, if_neg hq, List.mem_cons] at hp
        rcases hp with hp | hp
        · subst hp
          by_cases hpk : p.1 = k
          · exact absurd hpk hq
          · exact hP p (List.mem_cons_self _ _) hpk
        · exact ih hnd.2 (fun r hr hrk => hP r (List.mem_cons_of_mem _ hr) hrk)
            (fun r hr hrk => hf r (List.mem_cons_of_mem _ hr) hrk) p hp

/-! ## Lemmas about the invariant counts -/

theorem contaLivro_of_not_mem {k : String}
    {em : List (String × List (String × Emprestimo))} (h : k ∉ dkeys em) :
    contaLivro em k = 0 := by
  induction em with
  | nil => rfl
  | cons p l ih =>
      rw [dkeys_cons, List.mem_cons] at h
      push_neg at h
      have hp : ¬ p.1 = k := fun hh => h.1 hh.symm
      simp only [contaLivro, List.map_cons, List.sum_cons, if_neg hp]
      simpa [contaLivro] using ih h.2

theorem contaLivro_eq_nEmp {k : String}
    {em : List (String × List (String × Emprestimo))} (h : (dkeys em).Nodup) :
    contaLivro em k = nEmp em k := by
  induction em with
  | nil => rfl
  | cons p l ih =>
      rw [dkeys_cons, List.nodup_cons] at h
      by_cases hp : p.1 = k
      · subst hp
        simp only [contaLivro, List.map_cons, List.sum_cons, if_pos rfl, nEmp,
          dlookup, if_pos rfl]
        have h0 : contaLivro l p.1 = 0 := contaLivro_of_not_mem h.1
        simpa [contaLivro] using h0
      · simp only [contaLivro, List.map_cons, List.sum_cons, if_neg hp, nEmp,
          dlookup, if_neg hp, Nat.zero_add]
        simpa [contaLivro, nEmp] using ih h.2

theorem stinv_vazio : StInv vazio := by
  constructor <;> simp [vazio, dkeys]

theorem inv_vazio : BibInv vazio fsVazio :=
  ⟨stinv_vazio, fun _ => rfl, fun _ => rfl⟩

/-! ## Preservation of the state invariant -/

theorem stinv_adicionar_aluno (h : StInv b) (aluno_id nome : String) :
    StInv (adicionar_aluno b aluno_id nome).2.1 := by
  unfold adicionar_aluno
  by_cases hd : dmem aluno_id b.alunos
  · simp only [hd, if_true]; exact h
  · simp only [hd, Bool.false_eq_true, if_false]
    have hnone : dlookup aluno_id b.alunos = none :=
      dmem_eq_false_iff.mp (by simpa using hd)
    have hid : aluno_id ∉ dkeys b.alunos := dlookup_eq_none_iff.mp hnone
    refine ⟨h.livNodup, ?_, h.empNodup, h.innerNodup, h.innerNe, h.livKey, ?_,
      h.empRef, h.conta, h.dispPos⟩
    · rw [dkeys_append]
      refine List.Nodup.append h.aluNodup (List.nodup_singleton _) ?_
      intro x hx hx'
      simp [dkeys] at hx'
      exact hid (hx' ▸ hx)
    · intro p hp
      rcases List.mem_append.mp hp with hp | hp
      · exact h.aluKey p hp
      · simp at hp
        subst hp
        rfl

theorem stinv_banir_aluno (h : StInv b) (aluno_id : String) :
    StInv (banir_aluno b aluno_id).2.1 := by
  unfold banir_aluno
  cases ha : dlookup aluno_id b.alunos with
  | none => simpa only [ha] using h
  | some a =>
      simp only [ha]
      by_cases ht : b.emprestimos.any (fun p => dmem aluno_id p.2)
      · simp only [ht, if_true]; exact h
      · simp only [ht, Bool.false_eq_true, if_false]
        refine ⟨h.livNodup, ?_, h.empNodup, h.innerNodup, h.innerNe, h.livKey, ?_,
          h.empRef, h.conta, h.dispPos⟩
        · rw [dkeys_dmodify]; exact h.aluNodup
        · exact dmodify_forall h.aluKey (fun p hp hk => h.aluKey p hp)

theorem stinv_desbanir_aluno (h : StInv b) (aluno_id : String) :
    StInv (desbanir_aluno b aluno_id).2.1 := by
  unfold desbanir_aluno
  cases ha : dlookup aluno_id b.alunos with
  | none => simpa only [ha] using h
  | some a =>
      simp only [ha]
      refine ⟨h.livNodup, ?_, h.empNodup, h.innerNodup, h.innerNe, h.livKey, ?_,
        h.empRef, h.conta, h.dispPos⟩
      · rw [dkeys_dmodify]; exact h.aluNodup
      · exact dmodify_forall h.aluKey (fun p hp hk => h.aluKey p hp)

theorem nEmp_of_not_ref (h : StInv b) {isbn : String}
    (hl : isbn ∉ dkeys b.livros) : nEmp b.emprestimos isbn = 0 := by
  unfold nEmp
  cases hin : dlookup isbn b.emprestimos with
  | none => rfl
  | some inner =>
      exact absurd (h.empRef _ (dlookup_mem hin)) hl

theorem stinv_adicionar_livro (h : StInv b) (titulo autor isbn : String)
    {copias : Int} (hc : 0 < copias) :
    StInv (adicionar_livro b titulo autor isbn copias).1 := by
  unfold adicionar_livro
  cases hl : dlookup isbn b.livros with
  | some livro =>
      simp only [hl]
      refine ⟨?_, h.aluNodup, h.empNodup, h.innerNodup, h.innerNe, ?_, h.aluKey,
        ?_, ?_, ?_⟩
      · rw [dkeys_dmodify]; exact h.livNodup
      · exact dmodify_forall h.livKey (fun p hp hk => h.livKey p hp)
      · intro p hp
        rw [dkeys_dmodify]
        exact h.empRef p hp
      · refine dmodify_forall h.conta (fun p hp hk => ?_)
        have := h.conta p hp
        dsimp only
        omega
      · refine dmodify_forall h.dispPos (fun p hp hk => ?_)
        have := h.dispPos p hp
        dsimp only
        omega
  | none =>
      simp only [hl]
      have hni : isbn ∉ dkeys b.livros := dlookup_eq_none_iff.mp hl
      refine ⟨?_, h.aluNodup, h.empNodup, h.innerNodup, h.innerNe, ?_, h.aluKey,
        ?_, ?_, ?_⟩
      · rw [dkeys_append]
        refine List.Nodup.append h.livNodup (List.nodup_singleton _) ?_
        intro x hx hx'
        simp [dkeys] at hx'
        exact hni (hx' ▸ hx)
      · intro p hp
        rcases List.mem_append.mp hp with hp | hp
        · exact h.livKey p hp
        · simp at hp; subst hp; rfl
      · intro p hp
        rw [dkeys_append]
        exact List.mem_append_left _ (h.empRef p hp)
      · intro p hp
        rcases List.mem_append.mp hp with hp | hp
        · exact h.conta p hp
        · simp at hp; subst hp
          have h0 : nEmp b.emprestimos isbn = 0 := nEmp_of_not_ref h hni
          simp [h0]
      · intro p hp
        rcases List.mem_append.mp hp with hp | hp
        · exact h.dispPos p hp
        · simp at hp; subst hp
          exact le_of_lt hc

theorem stinv_emprestar_aux {b : Biblioteca} {isbn aluno_id : String}
    {livro : Livro} {e : Emprestimo}
    {emp1 : List (String × List (String × Emprestimo))}
    {inner0 : List (String × Emprestimo)}
    (h : StInv b)
    (hl : dlookup isbn b.livros = some livro)
    (hb2 : ¬ livro.copias_disponiveis ≤ 0)
    (h1 : dlookup isbn emp1 = some inner0)
    (h2 : ∀ k, k ≠ isbn → dlookup k emp1 = dlookup k b.emprestimos)
    (h3 : (dkeys emp1).Nodup)
    (h4 : dlookup aluno_id inner0 = none)
    (h5 : ∀ p ∈ emp1, (dkeys p.2).Nodup)
    (h6 : ∀ p ∈ emp1, p.1 ≠ isbn → p.2 ≠ [])
    (h7 : ∀ p ∈ emp1, p.1 ∈ dkeys b.livros)
    (h8 : nEmp b.emprestimos isbn = inner0.length) :
    StInv { b with
      livros := dmodify isbn
        (fun l => { l with copias_disponiveis := l.copias_disponiveis - 1 }) b.livros,
      emprestimos := dmodify isbn (dinsert aluno_id e) emp1 } := by
  have hins : dinsert aluno_id e inner0 = inner0 ++ [(aluno_id, e)] :=
    dinsert_eq_append h4 e
  have hidni : aluno_id ∉ dkeys inner0 := dlookup_eq_none_iff.mp h4
  have hlook2 : dlookup isbn (dmodify isbn (dinsert aluno_id e) emp1) =
      some (dinsert aluno_id e inner0) := by
    rw [dlookup_dmodify, if_pos rfl, h1]; rfl
  have hlook2' : ∀ k, k ≠ isbn →
      dlookup k (dmodify isbn (dinsert aluno_id e) emp1) = dlookup k b.emprestimos := by
    intro k hk
    rw [dlookup_dmodify, if_neg (fun hh => hk hh.symm)]
    exact h2 k hk
  refine ⟨?_, h.aluNodup, ?_, ?_, ?_, ?_, h.aluKey, ?_, ?_, ?_⟩
  · rw [dkeys_dmodify]; exact h.livNodup
  · rw [dkeys_dmodify]; exact h3
  · refine dmodify_forall_nodup h3 (fun p hp _ => h5 p hp) (fun p hp hk => ?_)
    have hpe : p.2 = inner0 := by
      have := dlookup_of_mem_nodup h3 hp
      rw [hk, h1] at this
      exact Option.some.inj this.symm
    have hnd0 : (dkeys inner0).Nodup := hpe ▸ h5 p hp
    dsimp only
    rw [hpe, hins, dkeys_append]
    refine List.Nodup.append hnd0 (List.nodup_singleton _) ?_
    intro x hx hx'
    simp [dkeys] at hx'
    exact hidni (hx' ▸ hx)
  · refine dmodify_forall_nodup h3 (fun p hp hk => h6 p hp hk) (fun p hp hk => ?_)
    exact dinsert_ne_nil _ _ _
  · refine dmodify_forall h.livKey (fun p hp hk => h.livKey p hp)
  · intro p hp
    rw [dkeys_dmodify]
    exact dmodify_forall h7 (fun q hq hk => h7 q hq) p hp
  · refine dmodify_forall_nodup h.livNodup (fun p hp hk => ?_) (fun p hp hk => ?_)
    · have := h.conta p hp
      have hn : nEmp (dmodify isbn (dinsert aluno_id e) emp1) p.1 =
          nEmp b.emprestimos p.1 := by
        unfold nEmp
        rw [hlook2' p.1 hk]
      rw [hn]
      exact this
    · have hc := h.conta p hp
      have hn : nEmp (dmodify isbn (dinsert aluno_id e) emp1) isbn =
          inner0.length + 1 := by
        unfold nEmp
        rw [hlook2, hins]
        simp
      dsimp only
      rw [hk, hn]
      rw [hk, h8] at hc
      omega
  · refine dmodify_forall_nodup h.livNodup (fun p hp hk => h.dispPos p hp)
      (fun p hp hk => ?_)
    have hpe : p.2 = livro := by
      have := dlookup_of_mem_nodup h.livNodup hp
      rw [hk, hl] at this
      exact Option.some.inj this.symm
    dsimp only
    rw [hpe]
    omega

theorem stinv_emprestar (h : StInv b) (isbn aluno_id : String) (now : Nat) :
    StInv (emprestar_livro b isbn aluno_id now).2.1 := by
  unfold emprestar_livro
  cases hl : dlookup isbn b.livros with
  | none => simpa only [hl] using h
  | some livro =>
  cases ha : dlookup aluno_id b.alunos with
  | none => simpa only [hl, ha] using h
  | some aluno =>
  simp only [hl, ha]
  by_cases hb1 : aluno.banido = "Sim"
  · simp only [hb1, if_true]; exact h
  simp only [hb1, if_false]
  by_cases hb2 : livro.copias_disponiveis ≤ 0
  · simp only [if_pos hb2]; exact h
  simp only [if_neg hb2]
  by_cases hb3 : (buscaEmp b isbn aluno_id).isSome
  · simp only [hb3, if_true]; exact h
  simp only [hb3, Bool.false_eq_true, if_false]
  have hbe : buscaEmp b isbn aluno_id = none := Option.not_isSome_iff_eq_none.mp hb3
  by_cases hm : dmem isbn b.emprestimos
  · obtain ⟨inner0, hin⟩ := Option.isSome_iff_exists.mp (by simpa [dmem] using hm)
    have h4 : dlookup aluno_id inner0 = none := by
      unfold buscaEmp at hbe
      rw [hin] at hbe
      simpa using hbe
    simp only [hm, if_true]
    exact stinv_emprestar_aux h hl hb2 hin (fun k hk => rfl) h.empNodup h4
      h.innerNodup (fun p hp _ => h.innerNe p hp) h.empRef
      (by simp [nEmp, hin])
  · have hnone : dlookup isbn b.emprestimos = none :=
      dmem_eq_false_iff.mp (by simpa using hm)
    have hni : isbn ∉ dkeys b.emprestimos := dlookup_eq_none_iff.mp hnone
    have happ : dinsert isbn ([] : List (String × Emprestimo)) b.emprestimos =
        b.emprestimos ++ [(isbn, [])] := dinsert_eq_append hnone _
    simp only [hm, Bool.false_eq_true, if_false]
    rw [happ]
    have h1app : dlookup isbn (b.emprestimos ++ [(isbn, [])]) =
        some ([] : List (String × Emprestimo)) := by
      rw [dlookup_append_none hnone]
      simp [dlookup]
    refine stinv_emprestar_aux h hl hb2 h1app ?_ ?_ rfl ?_ ?_ ?_ ?_
    · intro k hk
      cases hke : dlookup k b.emprestimos with
      | some v => rw [dlookup_append_some hke]
      | none =>
          have hik : ¬ isbn = k := fun hh => hk hh.symm
          rw [dlookup_append_none hke]
          simp [dlookup, hik, hke]
    · rw [dkeys_append]
      refine List.Nodup.append h.empNodup (List.nodup_singleton _) ?_
      intro x hx hx'
      simp [dkeys] at hx'
      exact hni (hx' ▸ hx)
    · intro p hp
      rcases List.mem_append.mp hp with hp | hp
      · exact h.innerNodup p hp
      · simp at hp; subst hp; simp [dkeys]
    · intro p hp hk
      rcases List.mem_append.mp hp with hp | hp
      · exact h.innerNe p hp
      · simp at hp; subst hp; exact absurd rfl hk
    · intro p hp
      rcases List.mem_append.mp hp with hp | hp
      · exact h.empRef p hp
      · simp at hp; subst hp
        exact dlookup_isSome_iff.mp (by rw [hl]; rfl)
    · simp [nEmp, hnone]

theorem buscaEmp_some_elim {b : Biblioteca} {isbn aluno_id : String} {datas : Emprestimo}
    (hbe : buscaEmp b isbn aluno_id = some datas) :
    ∃ inner, dlookup isbn b.emprestimos = some inner ∧
      dlookup aluno_id inner = some datas := by
  unfold buscaEmp at hbe
  cases hj : dlookup isbn b.emprestimos with
  | none => rw [hj] at hbe; simp at hbe
  | some inner =>
      rw [hj] at hbe
      exact ⟨inner, rfl, by simpa using hbe⟩

theorem stinv_devolver (h : StInv b) (isbn aluno_id : String) (now : Nat) :
    StInv (devolver_livro b isbn aluno_id now).2.1 := by
  unfold devolver_livro
  cases hbe : buscaEmp b isbn aluno_id with
  | none => simpa only [hbe] using h
  | some datas =>
  simp only [hbe]
  obtain ⟨inner, hin, hid⟩ := buscaEmp_some_elim hbe
  have innerMem : (isbn, inner) ∈ b.emprestimos := dlookup_mem hin
  have hidm : aluno_id ∈ dkeys inner :=
    dlookup_isSome_iff.mp (by rw [hid]; rfl)
  have glen : inner.length = (derase aluno_id inner).length + 1 := derase_length hidm
  have g1 : dlookup isbn (dmodify isbn (derase aluno_id) b.emprestimos) =
      some (derase aluno_id inner) := by
    rw [dlookup_dmodify, if_pos rfl, hin]; rfl
  have g2 : ∀ k, k ≠ isbn →
      dlookup k (dmodify isbn (derase aluno_id) b.emprestimos) =
        dlookup k b.emprestimos := by
    intro k hk
    rw [dlookup_dmodify, if_neg (fun hh => hk hh.symm)]
  have g3 : (dkeys (dmodify isbn (derase aluno_id) b.emprestimos)).Nodup := by
    rw [dkeys_dmodify]; exact h.empNodup
  have hnEmpIn : nEmp b.emprestimos isbn = inner.length := by
    simp [nEmp, hin]
  by_cases hc : dlookup isbn (dmodify isbn (derase aluno_id) b.emprestimos) =
      some ([] : List (String × Emprestimo))
  · have derased : derase aluno_id inner = [] := by
      have := g1.symm.trans hc
      simpa using this
    simp only [hc, if_true]
    have e3 : ∀ p, p ∈ derase isbn (dmodify isbn (derase aluno_id) b.emprestimos) →
        p ∈ b.emprestimos ∧ p.1 ≠ isbn := by
      intro p hp
      obtain ⟨hp1, hp2⟩ := mem_derase_ne g3 hp
      exact ⟨mem_dmodify_ne hp1 hp2, hp2⟩
    refine ⟨?_, h.aluNodup, ?_, ?_, ?_, ?_, h.aluKey, ?_, ?_, ?_⟩
    · rw [dkeys_dmodify]; exact h.livNodup
    · exact g3.sublist (dkeys_derase_sublist _ _)
    · intro p hp
      exact h.innerNodup p (e3 p hp).1
    · intro p hp
      exact h.innerNe p (e3 p hp).1
    · exact dmodify_forall h.livKey (fun p hp hk => h.livKey p hp)
    · intro p hp
      rw [dkeys_dmodify]
      exact h.empRef p (e3 p hp).1
    · refine dmodify_forall_nodup h.livNodup (fun p hp hk => ?_) (fun p hp hk => ?_)
      · have hn : nEmp (derase isbn (dmodify isbn (derase aluno_id) b.emprestimos)) p.1 =
            nEmp b.emprestimos p.1 := by
          unfold nEmp
          rw [dlookup_derase_ne (fun hh => hk hh.symm), g2 p.1 hk]
        rw [hn]
        exact h.conta p hp
      · have hc2 := h.conta p hp
        have hn : nEmp (derase isbn (dmodify isbn (derase aluno_id) b.emprestimos)) isbn
            = 0 := by
          unfold nEmp
          rw [dlookup_derase_self g3]
        dsimp only
        rw [hk, hn]
        rw [hk, hnEmpIn] at hc2
        rw [derased] at glen
        simp at glen
        omega
    · refine dmodify_forall_nodup h.livNodup (fun p hp hk => h.dispPos p hp)
        (fun p hp hk => ?_)
      have := h.dispPos p hp
      dsimp only
      omega
  · have derNe : derase aluno_id inner ≠ [] := by
      intro hh
      exact hc (by rw [g1, hh])
    simp only [hc, if_false]
    refine ⟨?_, h.aluNodup, g3, ?_, ?_, ?_, h.aluKey, ?_, ?_, ?_⟩
    · rw [dkeys_dmodify]; exact h.livNodup
    · refine dmodify_forall_nodup h.empNodup (fun p hp _ => h.innerNodup p hp)
        (fun p hp hk => ?_)
      exact (h.innerNodup p hp).sublist (dkeys_derase_sublist _ _)
    · refine dmodify_forall_nodup h.empNodup (fun p hp _ => h.innerNe p hp)
        (fun p hp hk => ?_)
      have hpe : p.2 = inner := by
        have := dlookup_of_mem_nodup h.empNodup hp
        rw [hk, hin] at this
        exact Option.some.inj this.symm
      dsimp only
      rw [hpe]
      exact derNe
    · exact dmodify_forall h.livKey (fun p hp hk => h.livKey p hp)
    · intro p hp
      rw [dkeys_dmodify]
      exact dmodify_forall h.empRef (fun q hq hk => h.empRef q hq) p hp
    · refine dmodify_forall_nodup h.livNodup (fun p hp hk => ?_) (fun p hp hk => ?_)
      · have hn : nEmp (dmodify isbn (derase aluno_id) b.emprestimos) p.1 =
            nEmp b.emprestimos p.1 := by
          unfold nEmp
          rw [g2 p.1 hk]
        rw [hn]
        exact h.conta p hp
      · have hc2 := h.conta p hp
        have hn : nEmp (dmodify isbn (derase aluno_id) b.emprestimos) isbn =
            (derase aluno_id inner).length := by
          simp [nEmp, g1]
        dsimp only
        rw [hk, hn]
        rw [hk, hnEmpIn] at hc2
        omega
    · refine dmodify_forall_nodup h.livNodup (fun p hp hk => h.dispPos p hp)
        (fun p hp hk => ?_)
      have := h.dispPos p hp
      dsimp only
      omega

/-! ## Save-flag and frozen-state facts (the early-return discipline) -/

theorem dmodify_eq_nil_iff {k : String} {f : α → α} {l : List (String × α)} :
    dmodify k f l = [] ↔ l = [] := by
  cases l with
  | nil => simp [dmodify]
  | cons p l => by_cases hp : p.1 = k <;> simp [dmodify, hp]

theorem adicionar_livro_saved (b : Biblioteca) (t a i : String) (c : Int) :
    (adicionar_livro b t a i c).2 = true := by
  unfold adicionar_livro
  split <;> rfl

theorem atomic_adicionar_aluno (b : Biblioteca) (id n : String) :
    (∀ e, (adicionar_aluno b id n).1 = Except.error e →
      (adicionar_aluno b id n).2.1 = b ∧ (adicionar_aluno b id n).2.2 = false) ∧
    (∀ v, (adicionar_aluno b id n).1 = Except.ok v →
      (adicionar_aluno b id n).2.2 = true) := by
  unfold adicionar_aluno
  split <;> simp

theorem atomic_banir_aluno (b : Biblioteca) (id : String) :
    (∀ e, (banir_aluno b id).1 = Except.error e →
      (banir_aluno b id).2.1 = b ∧ (banir_aluno b id).2.2 = false) ∧
    (∀ v, (banir_aluno b id).1 = Except.ok v → (banir_aluno b id).2.2 = true) := by
  unfold banir_aluno
  split
  · simp
  · split <;> simp

theorem atomic_desbanir_aluno (b : Biblioteca) (id : String) :
    (∀ e, (desbanir_aluno b id).1 = Except.error e →
      (desbanir_aluno b id).2.1 = b ∧ (desbanir_aluno b id).2.2 = false) ∧
    (∀ v, (desbanir_aluno b id).1 = Except.ok v →
      (desbanir_aluno b id).2.2 = true) := by
  unfold desbanir_aluno
  split <;> simp

theorem atomic_emprestar_livro (b : Biblioteca) (i a : String) (now : Nat) :
    (∀ e, (emprestar_livro b i a now).1 = Except.error e →
      (emprestar_livro b i a now).2.1 = b ∧
        (emprestar_livro b i a now).2.2 = false) ∧
    (∀ v, (emprestar_livro b i a now).1 = Except.ok v →
      (emprestar_livro b i a now).2.2 = true) := by
  unfold emprestar_livro
  split
  · simp
  · simp
  · split
    · simp
    · split
      · simp
      · split <;> simp

theorem atomic_devolver_livro (b : Biblioteca) (i a : String) (now : Nat) :
    (∀ e, (devolver_livro b i a now).1 = Except.error e →
      (devolver_livro b i a now).2.1 = b ∧ (devolver_livro b i a now).2.2 = false) ∧
    (∀ v, (devolver_livro b i a now).1 = Except.ok v →
      (devolver_livro b i a now).2.2 = true) := by
  unfold devolver_livro
  split <;> simp

theorem frozen_adicionar_aluno (b : Biblioteca) (id n : String)
    (h : (adicionar_aluno b id n).2.2 = false) : (adicionar_aluno b id n).2.1 = b := by
  revert h
  unfold adicionar_aluno
  split <;> simp

theorem frozen_banir_aluno (b : Biblioteca) (id : String)
    (h : (banir_aluno b id).2.2 = false) : (banir_aluno b id).2.1 = b := by
  revert h
  unfold banir_aluno
  split
  · simp
  · split <;> simp

theorem frozen_desbanir_aluno (b : Biblioteca) (id : String)
    (h : (desbanir_aluno b id).2.2 = false) : (desbanir_aluno b id).2.1 = b := by
  revert h
  unfold desbanir_aluno
  split <;> simp

theorem frozen_emprestar_livro (b : Biblioteca) (i a : String) (now : Nat)
    (h : (emprestar_livro b i a now).2.2 = false) :
    (emprestar_livro b i a now).2.1 = b := by
  revert h
  unfold emprestar_livro
  split
  · simp
  · simp
  · split
    · simp
    · split
      · simp
      · split <;> simp

theorem frozen_devolver_livro (b : Biblioteca) (i a : String) (now : Nat)
    (h : (devolver_livro b i a now).2.2 = false) :
    (devolver_livro b i a now).2.1 = b := by
  revert h
  unfold devolver_livro
  split <;> simp

/-! ## Nonemptiness of the two dicts never regresses -/

theorem nil_mono_adicionar_livro (b : Biblioteca) (t a i : String) (c : Int) :
    ((adicionar_livro b t a i c).1.livros = [] → b.livros = []) ∧
      ((adicionar_livro b t a i c).1.alunos = [] → b.alunos = []) := by
  unfold adicionar_livro
  split
  · exact ⟨fun hh => dmodify_eq_nil_iff.mp hh, fun hh => hh⟩
  · constructor <;> simp

theorem nil_mono_adicionar_aluno (b : Biblioteca) (id n : String) :
    ((adicionar_aluno b id n).2.1.livros = [] → b.livros = []) ∧
      ((adicionar_aluno b id n).2.1.alunos = [] → b.alunos = []) := by
  unfold adicionar_aluno
  split
  · exact ⟨fun hh => hh, fun hh => hh⟩
  · constructor <;> simp

theorem nil_mono_banir_aluno (b : Biblioteca) (id : String) :
    ((banir_aluno b id).2.1.livros = [] → b.livros = []) ∧
      ((banir_aluno b id).2.1.alunos = [] → b.alunos = []) := by
  unfold banir_aluno
  split
  · exact ⟨fun hh => hh, fun hh => hh⟩
  · split
    · exact ⟨fun hh => hh, fun hh => hh⟩
    · exact ⟨fun hh => hh, fun hh => dmodify_eq_nil_iff.mp hh⟩

theorem nil_mono_desbanir_aluno (b : Biblioteca) (id : String) :
    ((desbanir_aluno b id).2.1.livros = [] → b.livros = []) ∧
      ((desbanir_aluno b id).2.1.alunos = [] → b.alunos = []) := by
  unfold desbanir_aluno
  split
  · exact ⟨fun hh => hh, fun hh => hh⟩
  · exact ⟨fun hh => hh, fun hh => dmodify_eq_nil_iff.mp hh⟩

theorem nil_mono_emprestar_livro (b : Biblioteca) (i a : String) (now : Nat) :
    ((emprestar_livro b i a now).2.1.livros = [] → b.livros = []) ∧
      ((emprestar_livro b i a now).2.1.alunos = [] → b.alunos = []) := by
  unfold emprestar_livro
  split
  · exact ⟨fun hh => hh, fun hh => hh⟩
  · exact ⟨fun hh => hh, fun hh => hh⟩
  · split
    · exact ⟨fun hh => hh, fun hh => hh⟩
    · split
      · exact ⟨fun hh => hh, fun hh => hh⟩
      · split
        · exact ⟨fun hh => hh, fun hh => hh⟩
        · exact ⟨fun hh => dmodify_eq_nil_iff.mp hh, fun hh => hh⟩

theorem nil_mono_devolver_livro (b : Biblioteca) (i a : String) (now : Nat) :
    ((devolver_livro b i a now).2.1.livros = [] → b.livros = []) ∧
      ((devolver_livro b i a now).2.1.alunos = [] → b.alunos = []) := by
  unfold devolver_livro
  split
  · exact ⟨fun hh => hh, fun hh => hh⟩
  · exact ⟨fun hh => dmodify_eq_nil_iff.mp hh, fun hh => hh⟩

/-! ## The invariant along `applyOp` -/

theorem bibinv_save {b b' : Biblioteca} {fs : FS} (h : BibInv b fs) (hs' : StInv b')
    (hl : b'.livros = [] → b.livros = []) (ha : b'.alunos = [] → b.alunos = []) :
    BibInv b' (salvar_dados b' fs) := by
  refine ⟨hs', ?_, ?_⟩
  · intro hnil
    unfold salvar_dados
    simp only [hnil, List.isEmpty_nil, if_true]
    exact h.2.1 (hl hnil)
  · intro hnil
    unfold salvar_dados
    simp only [hnil, List.isEmpty_nil, if_true]
    exact h.2.2 (ha hnil)

theorem inv_applyOp {p : Biblioteca × FS} (h : BibInv p.1 p.2) (op : Op)
    (hv : ValidOp op) : BibInv (applyOp p op).1 (applyOp p op).2 := by
  obtain ⟨b, fs⟩ := p
  cases op with
  | addLivro t a i c =>
      simp only [applyOp, adicionar_livro_saved, if_true]
      exact bibinv_save h (stinv_adicionar_livro h.1 t a i hv)
        (nil_mono_adicionar_livro b t a i c).1 (nil_mono_adicionar_livro b t a i c).2
  | addAluno id n =>
      simp only [applyOp]
      by_cases hsv : (adicionar_aluno b id n).2.2 = true
      · simp only [hsv, if_true]
        exact bibinv_save h (stinv_adicionar_aluno h.1 id n)
          (nil_mono_adicionar_aluno b id n).1 (nil_mono_adicionar_aluno b id n).2
      · have hfalse : (adicionar_aluno b id n).2.2 = false := by
          simpa using hsv
        simp only [hfalse, Bool.false_eq_true, if_false]
        rw [frozen_adicionar_aluno b id n hfalse]
        exact h
  | banir id =>
      simp only [applyOp]
      by_cases hsv : (banir_aluno b id).2.2 = true
      · simp only [hsv, if_true]
        exact bibinv_save h (stinv_banir_aluno h.1 id)
          (nil_mono_banir_aluno b id).1 (nil_mono_banir_aluno b id).2
      · have hfalse : (banir_aluno b id).2.2 = false := by simpa using hsv
        simp only [hfalse, Bool.false_eq_true, if_false]
        rw [frozen_banir_aluno b id hfalse]
        exact h
  | desbanir id =>
      simp only [applyOp]
      by_cases hsv : (desbanir_aluno b id).2.2 = true
      · simp only [hsv, if_true]
        exact bibinv_save h (stinv_desbanir_aluno h.1 id)
          (nil_mono_desbanir_aluno b id).1 (nil_mono_desbanir_aluno b id).2
      · have hfalse : (desbanir_aluno b id).2.2 = false := by simpa using hsv
        simp only [hfalse, Bool.false_eq_true, if_false]
        rw [frozen_desbanir_aluno b id hfalse]
        exact h
  | emprestar i a now =>
      simp only [applyOp]
      by_cases hsv : (emprestar_livro b i a now).2.2 = true
      · simp only [hsv, if_true]
        exact bibinv_save h (stinv_emprestar h.1 i a now)
          (nil_mono_emprestar_livro b i a now).1 (nil_mono_emprestar_livro b i a now).2
      · have hfalse : (emprestar_livro b i a now).2.2 = false := by simpa using hsv
        simp only [hfalse, Bool.false_eq_true, if_false]
        rw [frozen_emprestar_livro b i a now hfalse]
        exact h
  | devolver i a now =>
      simp only [applyOp]
      by_cases hsv : (devolver_livro b i a now).2.2 = true
      · simp only [hsv, if_true]
        exact bibinv_save h (stinv_devolver h.1 i a now)
          (nil_mono_devolver_livro b i a now).1 (nil_mono_devolver_livro b i a now).2
      · have hfalse : (devolver_livro b i a now).2.2 = false := by simpa using hsv
        simp only [hfalse, Bool.false_eq_true, if_false]
        rw [frozen_devolver_livro b i a now hfalse]
        exact h

/-- Every reachable configuration satisfies the invariant. -/
theorem reachable_inv {p : Biblioteca × FS} (h : Reachable p) : BibInv p.1 p.2 := by
  induction h with
  | init => exact inv_vazio
  | step op hp hv ih => exact inv_applyOp ih op hv

/-! ## Round-trip of `salvar_dados` / `carregar_dados` -/

theorem foldl_dinsert_rebuild {α : Type} {kf : α → String} {l : List (String × α)}
    {acc : List (String × α)}
    (hk : ∀ p ∈ l, kf p.2 = p.1) (hnd : (dkeys l).Nodup)
    (hdisj : ∀ p ∈ l, p.1 ∉ dkeys acc) :
    (l.map Prod.snd).foldl (fun d r => dinsert (kf r) r d) acc = acc ++ l := by
  induction l generalizing acc with
  | nil => simp
  | cons p rest ih =>
      rw [dkeys_cons, List.nodup_cons] at hnd
      have hk0 : kf p.2 = p.1 := hk p (List.mem_cons_self _ _)
      have hacc : dlookup p.1 acc = none :=
        dlookup_eq_none_iff.mpr (hdisj p (List.mem_cons_self _ _))
      have hstep : dinsert (kf p.2) p.2 acc = acc ++ [p] := by
        rw [hk0, dinsert_eq_append hacc]
      rw [List.map_cons, List.foldl_cons, hstep]
      rw [ih (fun q hq => hk q (List.mem_cons_of_mem _ hq)) hnd.2 ?_]
      · rw [List.append_assoc]
        rfl
      · intro q hq
        rw [dkeys_append]
        intro hmem
        rcases List.mem_append.mp hmem with hmem | hmem
        · exact hdisj q (List.mem_cons_of_mem _ hq) hmem
        · have : q.1 = p.1 := by simpa [dkeys] using hmem
          exact hnd.1 (this ▸ mem_dkeys_of_mem hq)

theorem loans_fold_inner {k : String} {built inner2 : List (String × Emprestimo)}
    {acc : List (String × List (String × Emprestimo))}
    (hacc : dlookup k acc = none)
    (hdisj : ∀ q ∈ inner2, q.1 ∉ dkeys built)
    (hnd : (dkeys inner2).Nodup) :
    (inner2.map (fun q =>
        EmpRow.mk k q.1 q.2.data_emprestimo q.2.data_vencimento)).foldl
      (fun d r =>
        let d1 := if dmem r.isbn d then d else dinsert r.isbn [] d
        dmodify r.isbn
          (dinsert r.aluno_id ⟨r.data_emprestimo, r.data_vencimento⟩) d1)
      (acc ++ [(k, built)]) = acc ++ [(k, built ++ inner2)] := by
  induction inner2 generalizing built with
  | nil => simp
  | cons q rest ih =>
      rw [dkeys_cons, List.nodup_cons] at hnd
      have hlook : dlookup k (acc ++ [(k, built)]) = some built := by
        rw [dlookup_append_none hacc]
        simp [dlookup]
      have hmem : dmem k (acc ++ [(k, built)]) = true := by
        simp [dmem, hlook]
      have hq1 : dlookup q.1 built = none :=
        dlookup_eq_none_iff.mpr (hdisj q (List.mem_cons_self _ _))
      have hins : dinsert q.1 (⟨q.2.data_emprestimo, q.2.data_vencimento⟩ : Emprestimo)
          built = built ++ [q] := by
        rw [dinsert_eq_append hq1]
      rw [List.map_cons, List.foldl_cons]
      dsimp only
      rw [if_pos hmem, dmodify_append hacc, hins]
      rw [ih ?_ hnd.2]
      · rw [List.append_assoc]
        rfl
      · intro r hr
        rw [dkeys_append]
        intro hmem2
        rcases List.mem_append.mp hmem2 with hmem2 | hmem2
        · exact hdisj r (List.mem_cons_of_mem _ hr) hmem2
        · have heq : r.1 = q.1 := by simpa [dkeys] using hmem2
          have hq2 : q.1 ∈ dkeys rest := heq ▸ mem_dkeys_of_mem hr
          exact hnd.1 hq2

theorem loans_fold_rebuild {em : List (String × List (String × Emprestimo))}
    {acc : List (String × List (String × Emprestimo))}
    (hnd : (dkeys em).Nodup)
    (hinner : ∀ p ∈ em, (dkeys p.2).Nodup)
    (hne : ∀ p ∈ em, p.2 ≠ [])
    (hdisj : ∀ p ∈ em, p.1 ∉ dkeys acc) :
    (em.flatMap (fun p => p.2.map (fun q =>
        EmpRow.mk p.1 q.1 q.2.data_emprestimo q.2.data_vencimento))).foldl
      (fun d r =>
        let d1 := if dmem r.isbn d then d else dinsert r.isbn [] d
        dmodify r.isbn
          (dinsert r.aluno_id ⟨r.data_emprestimo, r.data_vencimento⟩) d1)
      acc = acc ++ em := by
  induction em generalizing acc with
  | nil => simp
  | cons p rest ih =>
      rw [dkeys_cons, List.nodup_cons] at hnd
      obtain ⟨k, inner⟩ := p
      have hinner0 : (dkeys inner).Nodup := hinner _ (List.mem_cons_self _ _)
      have hne0 : inner ≠ [] := hne _ (List.mem_cons_self _ _)
      have hacc : dlookup k acc = none := by
        exact dlookup_eq_none_iff.mpr (hdisj _ (List.mem_cons_self _ _))
      cases hi : inner with
      | nil => exact absurd hi hne0
      | cons q is =>
      subst hi
      rw [dkeys_cons, List.nodup_cons] at hinner0
      rw [List.flatMap_cons, List.foldl_append]
      have hfirst :
          ((q :: is).map (fun q =>
              EmpRow.mk k q.1 q.2.data_emprestimo q.2.data_vencimento)).foldl
            (fun d r =>
              let d1 := if dmem r.isbn d then d else dinsert r.isbn [] d
              dmodify r.isbn
                (dinsert r.aluno_id ⟨r.data_emprestimo, r.data_vencimento⟩) d1)
            acc = acc ++ [(k, q :: is)] := by
        rw [List.map_cons, List.foldl_cons]
        dsimp only
        have hmemf : ¬ dmem k acc = true := by
          simp [dmem, hacc]
        rw [if_neg hmemf]
        rw [dinsert_eq_append hacc, dmodify_append hacc]
        have : dinsert q.1
            (⟨q.2.data_emprestimo, q.2.data_vencimento⟩ : Emprestimo) [] = [q] := by
          simp [dinsert]
        rw [this]
        have := @loans_fold_inner k [q] is acc hacc ?_ hinner0.2
        · simpa using this
        · intro r hr hmem
          have heq : r.1 = q.1 := by simpa [dkeys] using hmem
          have hq2 : q.1 ∈ dkeys is := heq ▸ mem_dkeys_of_mem hr
          exact hinner0.1 hq2
      rw [hfirst]
      rw [ih hnd.2 (fun r hr => hinner r (List.mem_cons_of_mem _ hr))
        (fun r hr => hne r (List.mem_cons_of_mem _ hr)) ?_]
      · rw [List.append_assoc]
        rfl
      · intro r hr
        rw [dkeys_append]
        intro hmem
        rcases List.mem_append.mp hmem with hmem | hmem
        · exact hdisj r (List.mem_cons_of_mem _ hr) hmem
        · have heq : r.1 = k := by simpa [dkeys] using hmem
          have hq2 : k ∈ dkeys rest := heq ▸ mem_dkeys_of_mem hr
          exact hnd.1 hq2

theorem carregar_salvar {b : Biblioteca} {fs : FS} (h : BibInv b fs) :
    carregar_dados (salvar_dados b fs) = b := by
  obtain ⟨hs, hfl, hfa⟩ := h
  obtain ⟨bl, ba, be⟩ := b
  unfold carregar_dados salvar_dados
  simp only [Biblioteca.mk.injEq]
  refine ⟨?_, ?_, ?_⟩
  · by_cases hbl : bl = []
    · subst hbl
      simp only [List.isEmpty_nil, if_true]
      rw [hfl rfl]
    · have hne : bl.isEmpty = false := by
        simpa [List.isEmpty_iff] using hbl
      simp only [hne, Bool.false_eq_true, if_false]
      exact foldl_dinsert_rebuild hs.livKey hs.livNodup (by simp [dkeys])
  · by_cases hba : ba = []
    · subst hba
      simp only [List.isEmpty_nil, if_true]
      rw [hfa rfl]
    · have hne : ba.isEmpty = false := by
        simpa [List.isEmpty_iff] using hba
      simp only [hne, Bool.false_eq_true, if_false]
      exact foldl_dinsert_rebuild hs.aluKey hs.aluNodup (by simp [dkeys])
  · exact loans_fold_rebuild hs.empNodup hs.innerNodup hs.innerNe (by simp [dkeys])

/-! ## Helper facts for the claim theorems -/

theorem diaDe_add_emprestimo (now : Nat) :
    diaDe (now + DIAS_EMPRESTIMO * SEGUNDOS_POR_DIA) = diaDe now + 7 := by
  unfold diaDe DIAS_EMPRESTIMO SEGUNDOS_POR_DIA
  omega

theorem reachable_passo3 : Reachable passoExemplo3 :=
  Reachable.step _ (Reachable.step _ (Reachable.step _ Reachable.init
    Int.zero_lt_one) trivial) trivial

/-! ## The claims -/

/-- C1: on every `Issue(bookId, borrowerId, now)` call against a state whose
looked-up book has a non-negative available count, the operation fails with
`NotFound` exactly when the book or the borrower is unknown; otherwise with
`BorrowerSuspended` exactly when the borrower is suspended (before the
availability check); otherwise with `NoCopiesAvailable` exactly when the
available count is 0; otherwise with `AlreadyHolding` exactly when a loan for
the pair already exists; and no other error kind is ever reported, so the
four checks happen in exactly this order and at most one error is
reported. -/
theorem c1_emprestar_erros (b : Biblioteca) (isbn aluno_id : String) (now : Nat)
    (hge : ∀ l, dlookup isbn b.livros = some l → 0 ≤ l.copias_disponiveis) :
    ((emprestar_livro b isbn aluno_id now).1 = Except.error Err.notFound ↔
      dlookup isbn b.livros = none ∨ dlookup aluno_id b.alunos = none) ∧
    ((emprestar_livro b isbn aluno_id now).1 = Except.error Err.borrowerSuspended ↔
      ∃ l a, dlookup isbn b.livros = some l ∧ dlookup aluno_id b.alunos = some a ∧
        a.banido = "Sim") ∧
    ((emprestar_livro b isbn aluno_id now).1 = Except.error Err.noCopiesAvailable ↔
      ∃ l a, dlookup isbn b.livros = some l ∧ dlookup aluno_id b.alunos = some a ∧
        a.banido ≠ "Sim" ∧ l.copias_disponiveis = 0) ∧
    ((emprestar_livro b isbn aluno_id now).1 = Except.error Err.alreadyHolding ↔
      ∃ l a, dlookup isbn b.livros = some l ∧ dlookup aluno_id b.alunos = some a ∧
        a.banido ≠ "Sim" ∧ 0 < l.copias_disponiveis ∧
        buscaEmp b isbn aluno_id ≠ none) ∧
    (∀ e, (emprestar_livro b isbn aluno_id now).1 = Except.error e →
      e = Err.notFound ∨ e = Err.borrowerSuspended ∨ e = Err.noCopiesAvailable ∨
        e = Err.alreadyHolding) := by
  unfold emprestar_livro
  cases hl : dlookup isbn b.livros with
  | none => simp [hl]
  | some livro =>
  cases ha : dlookup aluno_id b.alunos with
  | none => simp [hl, ha]
  | some aluno =>
  simp only [hl, ha]
  by_cases hb1 : aluno.banido = "Sim"
  · simp [hb1]
  · simp only [hb1, if_false]
    by_cases hb2 : livro.copias_disponiveis ≤ 0
    · have h0 : livro.copias_disponiveis = 0 := le_antisymm hb2 (hge livro hl)
      simp [hb2, hb1, h0]
    · have hlt : 0 < livro.copias_disponiveis := not_le.mp hb2
      have h0 : livro.copias_disponiveis ≠ 0 := by omega
      simp only [hb2, if_false]
      by_cases hb3 : (buscaEmp b isbn aluno_id).isSome
      · have hne : buscaEmp b isbn aluno_id ≠ none :=
          Option.isSome_iff_ne_none.mp hb3
        simp [hb3, hb1, h0, hlt, hne]
      · have heq : buscaEmp b isbn aluno_id = none :=
          Option.not_isSome_iff_eq_none.mp hb3
        simp [hb3, hb1, h0, heq]

/-- Witness for C1: issuing against the empty state reports `NotFound`. -/
theorem c1_emprestar_erros_witness :
    (emprestar_livro vazio "B1" "S1" 0).1 = Except.error Err.notFound :=
  (c1_emprestar_erros vazio "B1" "S1" 0
    (fun l hl => by simp [vazio, dlookup] at hl)).1.mpr (Or.inl rfl)

/-- C2: when all four issuance checks pass, `Issue` decrements the book's
available count by exactly 1, records a loan with issue date `now` (as a
calendar day) and due date `now + 7 days` (the fixed constant), returns the
due date, and changes no other book, no borrower, and no other loan. -/
theorem c2_emprestar_sucesso (b : Biblioteca) (isbn aluno_id : String) (now : Nat)
    (livro : Livro) (aluno : Aluno)
    (hl : dlookup isbn b.livros = some livro)
    (ha : dlookup aluno_id b.alunos = some aluno)
    (hb1 : aluno.banido ≠ "Sim")
    (hb2 : 0 < livro.copias_disponiveis)
    (hb3 : buscaEmp b isbn aluno_id = none) :
    (emprestar_livro b isbn aluno_id now).1 = Except.ok (diaDe now + 7) ∧
    dlookup isbn (emprestar_livro b isbn aluno_id now).2.1.livros =
      some { livro with copias_disponiveis := livro.copias_disponiveis - 1 } ∧
    (∀ k, k ≠ isbn → dlookup k (emprestar_livro b isbn aluno_id now).2.1.livros =
      dlookup k b.livros) ∧
    (emprestar_livro b isbn aluno_id now).2.1.alunos = b.alunos ∧
    buscaEmp (emprestar_livro b isbn aluno_id now).2.1 isbn aluno_id =
      some ⟨diaDe now, diaDe now + 7⟩ ∧
    (∀ k j, ¬(k = isbn ∧ j = aluno_id) →
      buscaEmp (emprestar_livro b isbn aluno_id now).2.1 k j = buscaEmp b k j) := by
  have hb2' : ¬ livro.copias_disponiveis ≤ 0 := not_le.mpr hb2
  have hb3' : ¬ (buscaEmp b isbn aluno_id).isSome = true := by simp [hb3]
  have hred : emprestar_livro b isbn aluno_id now =
      (Except.ok (diaDe now + 7),
       { b with
           livros := dmodify isbn
             (fun l => { l with copias_disponiveis := l.copias_disponiveis - 1 })
             b.livros,
           emprestimos := dmodify isbn
             (dinsert aluno_id ⟨diaDe now, diaDe now + 7⟩)
             (if dmem isbn b.emprestimos then b.emprestimos
              else dinsert isbn [] b.emprestimos) },
       true) := by
    unfold emprestar_livro
    simp only [hl, ha, if_neg hb1, if_neg hb2', hb3', Bool.false_eq_true, if_false]
    rw [diaDe_add_emprestimo]
  rw [hred]
  refine ⟨rfl, ?_, ?_, rfl, ?_, ?_⟩
  · dsimp only
    rw [dlookup_dmodify, if_pos rfl, hl]
    rfl
  · intro k hk
    dsimp only
    rw [dlookup_dmodify, if_neg (fun hh => hk hh.symm)]
  · unfold buscaEmp
    dsimp only
    by_cases hm : dmem isbn b.emprestimos
    · obtain ⟨inner0, hin⟩ := Option.isSome_iff_exists.mp (by simpa [dmem] using hm)
      rw [if_pos hm, dlookup_dmodify, if_pos rfl, hin]
      simp [dlookup_dinsert]
    · rw [if_neg hm, dlookup_dmodify, if_pos rfl, dlookup_dinsert, if_pos rfl]
      simp [dlookup_dinsert]
  · intro k j hkj
    unfold buscaEmp
    dsimp only
    by_cases hk : k = isbn
    · subst hk
      have hj : j ≠ aluno_id := fun hh => hkj ⟨rfl, hh⟩
      have haj : ¬ aluno_id = j := fun hh => hj hh.symm
      by_cases hm : dmem k b.emprestimos
      · obtain ⟨inner0, hin⟩ :=
          Option.isSome_iff_exists.mp (by simpa [dmem] using hm)
        rw [if_pos hm, dlookup_dmodify, if_pos rfl, hin]
        simp [dlookup_dinsert, haj]
      · have hnone : dlookup k b.emprestimos = none :=
          dmem_eq_false_iff.mp (by simpa using hm)
        rw [if_neg hm, dlookup_dmodify, if_pos rfl, dlookup_dinsert, if_pos rfl]
        simp [dlookup_dinsert, dlookup, haj, hnone]
    · rw [dlookup_dmodify, if_neg (fun hh => hk hh.symm)]
      by_cases hm : dmem isbn b.emprestimos
      · rw [if_pos hm]
      · rw [if_neg hm, dlookup_dinsert, if_neg (fun hh => hk hh.symm)]

/-- Witness for C2: issuing `B1` to `S1` at instant 0 reports due day 7 and
the book becomes unavailable. -/
theorem c2_emprestar_sucesso_witness :
    (emprestar_livro bExemplo "B1" "S1" 0).1 = Except.ok 7 ∧
    dlookup "B1" (emprestar_livro bExemplo "B1" "S1" 0).2.1.livros =
      some ⟨"T", "A", "B1", 1, 0⟩ := by
  have h := c2_emprestar_sucesso bExemplo "B1" "S1" 0 ⟨"T", "A", "B1", 1, 1⟩
    ⟨"S1", "N", "Não"⟩ (by decide) (by decide) (by decide) (by decide) (by decide)
  exact ⟨h.1, h.2.1⟩

/-- C3: in every configuration reachable from the empty state by valid
Manager operations, every book record satisfies
`0 ≤ available ≤ total`. -/
theorem c3_invariante_copias {p : Biblioteca × FS} (h : Reachable p) :
    ∀ q ∈ p.1.livros, 0 ≤ q.2.copias_disponiveis ∧
      q.2.copias_disponiveis ≤ q.2.total_copias := by
  have hi := (reachable_inv h).1
  intro q hq
  refine ⟨hi.dispPos q hq, ?_⟩
  have hc := hi.conta q hq
  have hn : (0 : Int) ≤ (nEmp p.1.emprestimos q.1 : Int) := Int.ofNat_nonneg _
  omega

/-- Witness for C3 at the reachable state that has stocked, registered and
issued once: the lent-out book `B1` satisfies `0 ≤ 0 ≤ 1`. -/
theorem c3_invariante_copias_witness :
    (0 : Int) ≤ (Livro.mk "T" "A" "B1" 1 0).copias_disponiveis ∧
      (Livro.mk "T" "A" "B1" 1 0).copias_disponiveis ≤
        (Livro.mk "T" "A" "B1" 1 0).total_copias :=
  c3_invariante_copias reachable_passo3 ("B1", ⟨"T", "A", "B1", 1, 0⟩) (by decide)

/-- C9 (implicit): in every reachable configuration every book satisfies the
accounting identity `available = total - (open loans of this book, counted by
scanning the ledger)`, and this comes with `0 ≤ available ≤ total`. -/
theorem c9_contabilidade {p : Biblioteca × FS} (h : Reachable p) :
    ∀ q ∈ p.1.livros,
      q.2.copias_disponiveis =
        q.2.total_copias - (contaLivro p.1.emprestimos q.1 : Int) ∧
      0 ≤ q.2.copias_disponiveis ∧
      q.2.copias_disponiveis ≤ q.2.total_copias := by
  have hi := (reachable_inv h).1
  intro q hq
  have hc := hi.conta q hq
  have he : contaLivro p.1.emprestimos q.1 = nEmp p.1.emprestimos q.1 :=
    contaLivro_eq_nEmp hi.empNodup
  have hd := hi.dispPos q hq
  refine ⟨?_, hd, ?_⟩
  · rw [he]
    exact hc
  · have hn : (0 : Int) ≤ (nEmp p.1.emprestimos q.1 : Int) := Int.ofNat_nonneg _
    omega

/-- Witness for C9 at the same reachable state: `0 = 1 - 1` for the book on
loan. -/
theorem c9_contabilidade_witness :
    (Livro.mk "T" "A" "B1" 1 0).copias_disponiveis =
      (Livro.mk "T" "A" "B1" 1 0).total_copias -
        (contaLivro passoExemplo3.1.emprestimos "B1" : Int) ∧
    (0 : Int) ≤ (Livro.mk "T" "A" "B1" 1 0).copias_disponiveis ∧
    (Livro.mk "T" "A" "B1" 1 0).copias_disponiveis ≤
      (Livro.mk "T" "A" "B1" 1 0).total_copias :=
  c9_contabilidade reachable_passo3 ("B1", ⟨"T", "A", "B1", 1, 0⟩) (by decide)

/-- C8: from every reachable configuration, a save followed by a load
reconstructs exactly the in-memory state that was saved: same books, same
borrowers, same open loans, with identical keys and field values. -/
theorem c8_roundtrip {p : Biblioteca × FS} (h : Reachable p) :
    carregar_dados (salvar_dados p.1 p.2) = p.1 :=
  carregar_salvar (reachable_inv h)

/-- Witness for C8 at the reachable state with a book, a borrower and an
open loan. -/
theorem c8_roundtrip_witness :
    carregar_dados (salvar_dados passoExemplo3.1 passoExemplo3.2) =
      passoExemplo3.1 :=
  c8_roundtrip reachable_passo3

/-- C4 counterexample: in `bAtraso` the loan is due on calendar day 7, and a
return whose `now` lies on calendar day 7 (one hour past midnight,
`608400 = 7·86400 + 3600` seconds) is reported **late** with 0 whole days of
delay, although the claim says a return whose `now` equals the due date's
calendar date is on-time. -/
theorem c4_contraexemplo :
    buscaEmp bAtraso "B1" "S1" = some ⟨0, 7⟩ ∧
    diaDe 608400 = 7 ∧
    (devolver_livro bAtraso "B1" "S1" 608400).1 = Except.ok (some 0) := by
  refine ⟨by decide, by decide, ?_⟩
  rfl

/-- C4 as amended: a return of an open loan is reported late exactly when
`now` is strictly after the *midnight instant* of the due date
(`due_day · 86400`), with `days_overdue` the floor of the elapsed time past
that midnight in whole days; a return at or before that midnight is on-time
(so a return later in the due date's calendar day is already reported late,
with 0 days).  The open-loan report computes each status by exactly the same
rule, and being a pure function it has no side effects. -/
theorem c4_emendada (b : Biblioteca) (isbn aluno_id : String) (now : Nat)
    (datas : Emprestimo) (hbe : buscaEmp b isbn aluno_id = some datas) :
    (devolver_livro b isbn aluno_id now).1 = Except.ok
      (if datas.data_vencimento * SEGUNDOS_POR_DIA < now then
        some ((now - datas.data_vencimento * SEGUNDOS_POR_DIA) / SEGUNDOS_POR_DIA)
      else none) ∧
    ∀ item ∈ listar_emprestimos b now,
      item.atraso =
        if item.data_vencimento * SEGUNDOS_POR_DIA < now then
          some ((now - item.data_vencimento * SEGUNDOS_POR_DIA) / SEGUNDOS_POR_DIA)
        else none := by
  constructor
  · unfold devolver_livro
    simp only [hbe]
  · intro item hitem
    unfold listar_emprestimos at hitem
    rw [List.mem_flatMap] at hitem
    obtain ⟨p, hp, hq⟩ := hitem
    rw [List.mem_map] at hq
    obtain ⟨q, hq, rfl⟩ := hq
    rfl

/-- Witness for the amended C4, which is also the spec's day-10 scenario: a
loan due on day 7 returned at the start of day 10 reports 3 days overdue. -/
theorem c4_emendada_witness :
    (devolver_livro bAtraso "B1" "S1" 864000).1 = Except.ok (some 3) := by
  have h := (c4_emendada bAtraso "B1" "S1" 864000 ⟨0, 7⟩ (by decide)).1
  rw [h]
  rfl

/-- C5: `Return` fails with `NoSuchLoan` exactly when no loan exists for the
pair; on success (stated for dict-shaped states whose ledger keys are
unique, and a catalogued book) the loan record is deleted — the ledger has
no entry for the pair afterwards — and the book's available count grows by
exactly 1, regardless of the computed overdue status. -/
theorem c5_devolver (b : Biblioteca) (isbn aluno_id : String) (now : Nat) :
    ((devolver_livro b isbn aluno_id now).1 = Except.error Err.noSuchLoan ↔
      buscaEmp b isbn aluno_id = none) ∧
    (∀ datas livro, buscaEmp b isbn aluno_id = some datas →
      dlookup isbn b.livros = some livro →
      (dkeys b.emprestimos).Nodup →
      (∀ p ∈ b.emprestimos, (dkeys p.2).Nodup) →
      (∃ st, (devolver_livro b isbn aluno_id now).1 = Except.ok st) ∧
      buscaEmp (devolver_livro b isbn aluno_id now).2.1 isbn aluno_id = none ∧
      dlookup isbn (devolver_livro b isbn aluno_id now).2.1.livros =
        some { livro with copias_disponiveis := livro.copias_disponiveis + 1 }) := by
  constructor
  · unfold devolver_livro
    cases hbe : buscaEmp b isbn aluno_id with
    | none => simp
    | some datas => simp
  · intro datas livro hbe hl hnd hinner
    have hred : devolver_livro b isbn aluno_id now =
        (Except.ok (if datas.data_vencimento * SEGUNDOS_POR_DIA < now then
            some ((now - datas.data_vencimento * SEGUNDOS_POR_DIA) /
              SEGUNDOS_POR_DIA)
          else none),
         { b with
             livros := dmodify isbn
               (fun l => { l with copias_disponiveis := l.copias_disponiveis + 1 })
               b.livros,
             emprestimos :=
               if dlookup isbn (dmodify isbn (derase aluno_id) b.emprestimos) =
                   some [] then
                 derase isbn (dmodify isbn (derase aluno_id) b.emprestimos)
               else dmodify isbn (derase aluno_id) b.emprestimos },
         true) := by
      unfold devolver_livro
      simp only [hbe]
    rw [hred]
    obtain ⟨inner, hin, hid⟩ := buscaEmp_some_elim hbe
    have g1 : dlookup isbn (dmodify isbn (derase aluno_id) b.emprestimos) =
        some (derase aluno_id inner) := by
      rw [dlookup_dmodify, if_pos rfl, hin]; rfl
    have g3 : (dkeys (dmodify isbn (derase aluno_id) b.emprestimos)).Nodup := by
      rw [dkeys_dmodify]; exact hnd
    have hinnerN : (dkeys inner).Nodup := hinner _ (dlookup_mem hin)
    refine ⟨⟨_, rfl⟩, ?_, ?_⟩
    · unfold buscaEmp
      dsimp only
      by_cases hc : dlookup isbn (dmodify isbn (derase aluno_id) b.emprestimos) =
          some ([] : List (String × Emprestimo))
      · rw [if_pos hc, dlookup_derase_self g3]
        rfl
      · rw [if_neg hc, g1]
        simp [dlookup_derase_self hinnerN]
    · dsimp only
      rw [dlookup_dmodify, if_pos rfl, hl]
      rfl

/-- Witness for C5: returning the open loan of `bAtraso` on day 3 succeeds,
deletes the ledger entry and restores the book's availability to 1. -/
theorem c5_devolver_witness :
    (∃ st, (devolver_livro bAtraso "B1" "S1" 3).1 = Except.ok st) ∧
    buscaEmp (devolver_livro bAtraso "B1" "S1" 3).2.1 "B1" "S1" = none ∧
    dlookup "B1" (devolver_livro bAtraso "B1" "S1" 3).2.1.livros =
      some ⟨"T", "A", "B1", 1, 1⟩ := by
  have h := (c5_devolver bAtraso "B1" "S1" 3).2 ⟨0, 7⟩ ⟨"T", "A", "B1", 1, 0⟩
    (by decide) (by decide) (by decide) (by decide)
  refine ⟨h.1, h.2.1, ?_⟩
  rw [h.2.2]
  decide

/-- C6: `Suspend` fails with `NotFound` for an unknown identifier, fails with
`HasOpenLoans` exactly when the roster knows the borrower and a scan of the
ledger finds the identifier in some inner loan dict, and otherwise marks the
borrower suspended (`banido = "Sim"`), touching nothing else; `Reinstate`
fails with `NotFound` for an unknown identifier and otherwise
unconditionally marks the borrower active (`banido = "Não"`), with no
precondition on the borrower's loans. -/
theorem c6_banimento (b : Biblioteca) (aluno_id : String) :
    ((banir_aluno b aluno_id).1 = Except.error Err.notFound ↔
      dlookup aluno_id b.alunos = none) ∧
    ((banir_aluno b aluno_id).1 = Except.error Err.hasOpenLoans ↔
      (∃ a, dlookup aluno_id b.alunos = some a) ∧
        ∃ p ∈ b.emprestimos, (dlookup aluno_id p.2).isSome) ∧
    (∀ a, dlookup aluno_id b.alunos = some a →
      (¬ ∃ p ∈ b.emprestimos, (dlookup aluno_id p.2).isSome) →
      (banir_aluno b aluno_id).1 = Except.ok () ∧
      dlookup aluno_id (banir_aluno b aluno_id).2.1.alunos =
        some { a with banido := "Sim" } ∧
      (∀ k, k ≠ aluno_id →
        dlookup k (banir_aluno b aluno_id).2.1.alunos = dlookup k b.alunos) ∧
      (banir_aluno b aluno_id).2.1.livros = b.livros ∧
      (banir_aluno b aluno_id).2.1.emprestimos = b.emprestimos) ∧
    ((desbanir_aluno b aluno_id).1 = Except.error Err.notFound ↔
      dlookup aluno_id b.alunos = none) ∧
    (∀ a, dlookup aluno_id b.alunos = some a →
      (desbanir_aluno b aluno_id).1 = Except.ok () ∧
      dlookup aluno_id (desbanir_aluno b aluno_id).2.1.alunos =
        some { a with banido := "Não" } ∧
      (∀ k, k ≠ aluno_id →
        dlookup k (desbanir_aluno b aluno_id).2.1.alunos = dlookup k b.alunos)) := by
  have hscan : (b.emprestimos.any (fun p => dmem aluno_id p.2)) = true ↔
      ∃ p ∈ b.emprestimos, (dlookup aluno_id p.2).isSome := by
    simp [List.any_eq_true, dmem]
  cases ha : dlookup aluno_id b.alunos with
  | none =>
      unfold banir_aluno desbanir_aluno
      simp [ha]
  | some a0 =>
      unfold banir_aluno desbanir_aluno
      simp only [ha]
      by_cases ht : (b.emprestimos.any (fun p => dmem aluno_id p.2)) = true
      · refine ⟨?_, ?_, ?_, ?_, ?_⟩
        · simp [ht]
        · simp only [ht, if_true]
          constructor
          · intro _
            exact ⟨⟨a0, rfl⟩, hscan.mp ht⟩
          · intro _
            exact trivial
        · intro a haa hno
          exact absurd (hscan.mp ht) hno
        · simp
        · intro a haa
          obtain rfl : a0 = a := Option.some.inj haa
          refine ⟨trivial, ?_, ?_⟩
          · rw [dlookup_dmodify, if_pos rfl, ha]
            rfl
          · intro k hk
            rw [dlookup_dmodify, if_neg (fun hh => hk hh.symm)]
      · have htf : (b.emprestimos.any (fun p => dmem aluno_id p.2)) = false := by
          simpa using ht
        refine ⟨?_, ?_, ?_, ?_, ?_⟩
        · simp [htf]
        · simp only [htf, Bool.false_eq_true, if_false]
          constructor
          · intro hh
            simp at hh
          · intro hh
            exact absurd (hscan.mpr hh.2) (by simp [htf])
        · intro a haa hno
          obtain rfl : a0 = a := Option.some.inj haa
          simp only [htf, Bool.false_eq_true, if_false]
          refine ⟨trivial, ?_, ?_, trivial, trivial⟩
          · rw [dlookup_dmodify, if_pos rfl, ha]
            rfl
          · intro k hk
            rw [dlookup_dmodify, if_neg (fun hh => hk hh.symm)]
        · simp
        · intro a haa
          obtain rfl : a0 = a := Option.some.inj haa
          refine ⟨trivial, ?_, ?_⟩
          · rw [dlookup_dmodify, if_pos rfl, ha]
            rfl
          · intro k hk
            rw [dlookup_dmodify, if_neg (fun hh => hk hh.symm)]

/-- Witness for C6: in `bAtraso` (where `S1` holds a loan) suspension is
refused with `HasOpenLoans`; after returning the loan, suspension and
reinstatement behave as specified on the loan-free state `bExemplo`. -/
theorem c6_banimento_witness :
    (banir_aluno bAtraso "S1").1 = Except.error Err.hasOpenLoans ∧
    (banir_aluno bExemplo "S1").1 = Except.ok () ∧
    dlookup "S1" (banir_aluno bExemplo "S1").2.1.alunos =
      some ⟨"S1", "N", "Sim"⟩ ∧
    dlookup "S1" (desbanir_aluno bExemplo "S1").2.1.alunos =
      some ⟨"S1", "N", "Não"⟩ := by
  have h1 := (c6_banimento bAtraso "S1").2.1.mpr
    ⟨⟨⟨"S1", "N", "Não"⟩, by decide⟩,
     ⟨("B1", [("S1", ⟨0, 7⟩)]), by decide, by decide⟩⟩
  have h2 := (c6_banimento bExemplo "S1").2.2.1 ⟨"S1", "N", "Não"⟩ (by decide)
    (by decide)
  have h3 := (c6_banimento bExemplo "S1").2.2.2.2 ⟨"S1", "N", "Não"⟩ (by decide)
  exact ⟨h1, h2.1, h2.2.1, h3.2.1⟩

/-- C7 counterexample: the program's `Issue` takes no `now` parameter — it
reads the clock inside (`datetime.now()`, modelled as the ambient clock value
at call time) — so the very same call, state and arguments produce different
results (due day 7 vs day 14) under two clock readings, refuting "now is an
injectable parameter rather than being read from the system clock". -/
theorem c7_contraexemplo :
    emprestar_livro bExemplo "B1" "S1" 0 ≠
      emprestar_livro bExemplo "B1" "S1" 604800 := by
  intro h
  have h1 : (emprestar_livro bExemplo "B1" "S1" 0).1 = Except.ok 7 := rfl
  rw [h] at h1
  have h2 : (emprestar_livro bExemplo "B1" "S1" 604800).1 = Except.ok 14 := rfl
  rw [h2] at h1
  simp at h1

/-- C7 as amended: inside `Issue`, `Return` and the open-loan report the
current time is read from the system clock (modelled as the ambient clock
value `now` passed to the embedding); for a fixed state and a fixed clock
value each operation is deterministic — two runs produce identical results,
identical reported statuses and identical final states. -/
theorem c7_emendada (b b' : Biblioteca) (isbn aluno_id : String) (now now' : Nat)
    (hb : b = b') (hn : now = now') :
    emprestar_livro b isbn aluno_id now = emprestar_livro b' isbn aluno_id now' ∧
    devolver_livro b isbn aluno_id now = devolver_livro b' isbn aluno_id now' ∧
    listar_emprestimos b now = listar_emprestimos b' now' := by
  subst hb
  subst hn
  exact ⟨rfl, rfl, rfl⟩

/-- Witness for the amended C7 at a concrete state and clock value. -/
theorem c7_emendada_witness :
    emprestar_livro bExemplo "B1" "S1" 0 = emprestar_livro bExemplo "B1" "S1" 0 ∧
    devolver_livro bExemplo "B1" "S1" 0 = devolver_livro bExemplo "B1" "S1" 0 ∧
    listar_emprestimos bExemplo 0 = listar_emprestimos bExemplo 0 :=
  c7_emendada bExemplo bExemplo "B1" "S1" 0 0 rfl rfl

/-- C10: the early-return discipline makes every operation atomic — whenever
`Register`, `Suspend`, `Reinstate`, `Issue` or `Return` reports an error, the
state is exactly the state before the call and the save routine is not
reached; the save routine is reached exactly on success (and `Add-or-restock`
always succeeds and always saves). -/
theorem c10_atomicidade (b : Biblioteca) :
    (∀ titulo autor isbn copias,
      (adicionar_livro b titulo autor isbn copias).2 = true) ∧
    (∀ aluno_id nome,
      (∀ e, (adicionar_aluno b aluno_id nome).1 = Except.error e →
        (adicionar_aluno b aluno_id nome).2.1 = b ∧
          (adicionar_aluno b aluno_id nome).2.2 = false) ∧
      (∀ v, (adicionar_aluno b aluno_id nome).1 = Except.ok v →
        (adicionar_aluno b aluno_id nome).2.2 = true)) ∧
    (∀ aluno_id,
      (∀ e, (banir_aluno b aluno_id).1 = Except.error e →
        (banir_aluno b aluno_id).2.1 = b ∧ (banir_aluno b aluno_id).2.2 = false) ∧
      (∀ v, (banir_aluno b aluno_id).1 = Except.ok v →
        (banir_aluno b aluno_id).2.2 = true)) ∧
    (∀ aluno_id,
      (∀ e, (desbanir_aluno b aluno_id).1 = Except.error e →
        (desbanir_aluno b aluno_id).2.1 = b ∧
          (desbanir_aluno b aluno_id).2.2 = false) ∧
      (∀ v, (desbanir_aluno b aluno_id).1 = Except.ok v →
        (desbanir_aluno b aluno_id).2.2 = true)) ∧
    (∀ isbn aluno_id now,
      (∀ e, (emprestar_livro b isbn aluno_id now).1 = Except.error e →
        (emprestar_livro b isbn aluno_id now).2.1 = b ∧
          (emprestar_livro b isbn aluno_id now).2.2 = false) ∧
      (∀ v, (emprestar_livro b isbn aluno_id now).1 = Except.ok v →
        (emprestar_livro b isbn aluno_id now).2.2 = true)) ∧
    (∀ isbn aluno_id now,
      (∀ e, (devolver_livro b isbn aluno_id now).1 = Except.error e →
        (devolver_livro b isbn aluno_id now).2.1 = b ∧
          (devolver_livro b isbn aluno_id now).2.2 = false) ∧
      (∀ v, (devolver_livro b isbn aluno_id now).1 = Except.ok v →
        (devolver_livro b isbn aluno_id now).2.2 = true)) :=
  ⟨fun t a i c => adicionar_livro_saved b t a i c,
   fun id n => atomic_adicionar_aluno b id n,
   fun id => atomic_banir_aluno b id,
   fun id => atomic_desbanir_aluno b id,
   fun i a now => atomic_emprestar_livro b i a now,
   fun i a now => atomic_devolver_livro b i a now⟩

/-- Witness for C10: a duplicate registration against `bExemplo` leaves the
state untouched and does not save. -/
theorem c10_atomicidade_witness :
    (adicionar_aluno bExemplo "S1" "X").2.1 = bExemplo ∧
      (adicionar_aluno bExemplo "S1" "X").2.2 = false :=
  ((c10_atomicidade bExemplo).2.1 "S1" "X").1 Err.duplicateIdentifier rfl
